import Mathlib

/-!
# Verification of the video-prompt-uploader server pipeline

A shallow embedding of the pure logic of `server/index.js`: SRT subtitle
parsing, the 4-line model-response parser, prompt construction, frame-rate
probing, request validation, and the submission-store endpoints, together
with theorems settling the specification claims.

Strings are modelled as `List Char` (`Str`), and the JavaScript string
operations used by the source (`split`, `trim`, `toUpperCase`, `replace`,
regex matching) are given explicit executable definitions.
-/

namespace VPU

/-- Strings are lists of characters. -/
abbrev Str := List Char

/-- Convert a Lean string literal to the `Str` model. -/
def str (s : String) : Str := s.data

/-- The whitespace class of JavaScript regular expressions (ASCII part):
space, tab, newline, carriage return, vertical tab, form feed. -/
def jsWs (c : Char) : Bool :=
  c = ' ' || c = '\t' || c = '\n' || c = '\r' || c = '\x0b' || c = '\x0c'

/-- JavaScript `String.prototype.trim`: drop whitespace from both ends. -/
def jsTrim (s : Str) : Str :=
  ((s.dropWhile jsWs).reverse.dropWhile jsWs).reverse

/-- A string is trimmed when it is empty or neither end is whitespace. -/
def Trimmed (s : Str) : Bool :=
  match s with
  | [] => true
  | c :: _ => !jsWs c && !jsWs (s.getLastD ' ')

/-- JavaScript `s.split(sep)` for a single-character separator. -/
def splitChar (sep : Char) : Str → List Str
  | [] => [[]]
  | c :: rest =>
    match splitChar sep rest with
    | [] => [[]]
    | s :: ss => if c = sep then [] :: s :: ss else (c :: s) :: ss

/-- JavaScript `Array.prototype.join` with a string separator. -/
def joinStr (sep : Str) : List Str → Str
  | [] => []
  | [x] => x
  | x :: xs => x ++ sep ++ joinStr sep xs

/-- JavaScript `s.replace(old, new)` with one-character string arguments:
replaces the first occurrence only. -/
def replaceFirstChar (old new : Char) : Str → Str
  | [] => []
  | c :: rest => if c = old then new :: rest else c :: replaceFirstChar old new rest

/-- Numeric value of a digit character. -/
def digitVal (c : Char) : Nat := c.toNat - 48

/-- Value of a string of decimal digits (JavaScript `Number`/unary `+`
restricted to all-digit strings, the only use sites in the source). -/
def digitsToNat (s : Str) : Nat :=
  s.foldl (fun acc c => 10 * acc + digitVal c) 0

/-- ASCII upper-casing of one character (JavaScript `toUpperCase` on the
ASCII inputs used here). -/
def upperChar (c : Char) : Char :=
  if 97 ≤ c.toNat && c.toNat ≤ 122 then Char.ofNat (c.toNat - 32) else c

/-- JavaScript `s.toUpperCase()` (ASCII). -/
def upperStr (s : Str) : Str := s.map upperChar

/-- JavaScript `s.startsWith(p)`. -/
def strStarts : Str → Str → Bool
  | [], _ => true
  | _ :: _, [] => false
  | p :: ps, c :: cs => p = c && strStarts ps cs

/-- JavaScript `s.includes(c)` for a one-character needle. -/
def containsChar (c : Char) (s : Str) : Bool := s.any (· = c)

/-! ## SRT subtitle parsing (`parseSrt` in `server/index.js`)

The source splits the file on the regular expression `\n\s*\n`.  With a
greedy `\s*`, a match is a newline followed by the longest whitespace run
whose last character is again a newline.  `sepTail rest` looks, after an
initial newline, for the last newline inside the following maximal
whitespace run and returns the remainder of the string after it. -/

/-- Index of the last occurrence of `c` in `s`, if any. -/
def lastIdxOf (c : Char) (s : Str) : Option Nat :=
  match s.reverse.findIdx? (· = c) with
  | none => none
  | some k => some (s.length - 1 - k)

/-- After an initial `'\n'`, try to complete a `\n\s*\n` separator match:
take the maximal whitespace run and cut after its last newline. -/
def sepTail (rest : Str) : Option Str :=
  let w := rest.takeWhile jsWs
  match lastIdxOf '\n' w with
  | none => none
  | some k => some (rest.drop (k + 1))

/-- Prepend a character to the first piece of a split result. -/
def consHead (c : Char) : List Str → List Str
  | [] => [[c]]
  | s :: ss => (c :: s) :: ss

/-- Fuel-indexed worker for the `\n\s*\n` split; the fuel is an upper bound
on the string length, so the `0` branch is never reached from
`splitBlocksJs`.  Structural recursion on the fuel keeps the definition
kernel-reducible. -/
def splitBlocksAux : Nat → Str → List Str
  | _, [] => [[]]
  | 0, s => [s]
  | fuel + 1, c :: rest =>
    if c = '\n' then
      match sepTail rest with
      | some rest2 => [] :: splitBlocksAux fuel rest2
      | none => consHead c (splitBlocksAux fuel rest)
    else consHead c (splitBlocksAux fuel rest)

/-- JavaScript `srt.split(/\n\s*\n/)`. -/
def splitBlocksJs (s : Str) : List Str := splitBlocksAux s.length s

/-- One segment produced by `parseSrt`. -/
structure SrtSegment where
  startMs : Nat
  endMs : Nat
  text : Str
deriving DecidableEq, Repr, Inhabited

/-- Shape test for the timestamp group `\d\d:\d\d:\d\d[.,]\d\d\d`. -/
def tsShape (t : Str) : Bool :=
  match t with
  | [a, b, c1, c, d, c2, e, f, sep, g, h, i] =>
    a.isDigit && b.isDigit && c1 = ':' && c.isDigit && d.isDigit && c2 = ':' &&
    e.isDigit && f.isDigit && (sep = '.' || sep = ',') &&
    g.isDigit && h.isDigit && i.isDigit
  | _ => false

/-- Consume a 12-character timestamp matching `\d\d:\d\d:\d\d[.,]\d\d\d`. -/
def eatTimestamp (s : Str) : Option (Str × Str) :=
  let t := s.take 12
  if tsShape t then some (t, s.drop 12) else none

/-- Consume one expected literal character. -/
def expectChar (c : Char) : Str → Option Str
  | [] => none
  | x :: xs => if x = c then some xs else none

/-- Try to match `(\d\d:\d\d:\d\d[.,]\d\d\d)\s*-->\s*(\d\d:\d\d:\d\d[.,]\d\d\d)`
at the current position, returning the two captured timestamps. -/
def matchTimeAt (s : Str) : Option (Str × Str) :=
  match eatTimestamp s with
  | none => none
  | some (t1, r1) =>
    match expectChar '-' (r1.dropWhile jsWs) with
    | none => none
    | some r2 =>
      match expectChar '-' r2 with
      | none => none
      | some r3 =>
        match expectChar '>' r3 with
        | none => none
        | some r4 =>
          match eatTimestamp (r4.dropWhile jsWs) with
          | none => none
          | some (t2, _) => some (t1, t2)

/-- Unanchored search for the timestamp arrow pattern (`lines[1].match(timeRe)`):
first position, scanning left to right, where the pattern matches. -/
def matchTime : Str → Option (Str × Str)
  | [] => none
  | c :: rest =>
    match matchTimeAt (c :: rest) with
    | some r => some r
    | none => matchTime rest

/-- `toMs` from `parseSrt`: split on `':'`, normalise `'.'` to `','` in the
seconds part, split on `','`, and combine the digit fields.  Unreachable
shapes (never produced by the timestamp regex) evaluate to `0`. -/
def toMs (t : Str) : Nat :=
  match splitChar ':' t with
  | hh :: mm :: rest :: _ =>
    let restNorm := replaceFirstChar '.' ',' rest
    match splitChar ',' restNorm with
    | ss :: ms :: _ =>
      digitsToNat hh * 3600000 + digitsToNat mm * 60000 + digitsToNat ss * 1000 + digitsToNat ms
    | _ => 0
  | _ => 0

/-- Lines of one block: split on newline, trim each, drop empties. -/
def blockLines (b : Str) : List Str :=
  ((splitChar '\n' b).map jsTrim).filter (· ≠ [])

/-- Process one block's line list: require at least three lines, match the
timestamp pattern on the second, and join the remaining lines with single
spaces. -/
def parseBlockLines : List Str → Option SrtSegment
  | l0 :: l1 :: rest =>
    if rest = [] then none
    else
      match matchTime l1 with
      | none => none
      | some (t1, t2) =>
        let _ := l0
        some ⟨toMs t1, toMs t2, joinStr (str " ") rest⟩
  | _ => none

/-- `parseSrt` from `server/index.js`: split into blocks on `\n\s*\n`, trim
and drop empty blocks, then parse each block, skipping malformed ones. -/
def parseSrt (srt : Str) : List SrtSegment :=
  (((splitBlocksJs srt).map jsTrim).filter (· ≠ [])).filterMap
    (fun b => parseBlockLines (blockLines b))

/-! ## The 4-line model-response parser (`parseGeminiFourLines`) -/

/-- Result record of `parseGeminiFourLines`.  The three break fields are
`Option Nat` because the source leaves them `null` when the
`LONGEST_BREAK_MS` pattern does not match. -/
structure GeminiParsed where
  /-- The `show` field of the source record (`show` is a Lean keyword). -/
  showName : Str
  breakStartMs : Option Nat
  breakEndMs : Option Nat
  breakDurationMs : Option Nat
  clip1Question : Str
  clip2Answer : Str
deriving DecidableEq, Repr, Inhabited

/-- Non-empty trimmed lines of the raw response
(`rawText.split("\n").map(trim).filter(Boolean)`). -/
def geminiLines (raw : Str) : List Str :=
  ((splitChar '\n' raw).map jsTrim).filter (· ≠ [])

/-- `lines.find(l => l.toUpperCase().startsWith(label)) || ""`. -/
def findLabel (label : Str) (lines : List Str) : Str :=
  (lines.find? (fun l => strStarts label (upperStr l))).getD []

/-- JavaScript `line.replace(/^LABEL:\s*/i, "")`: strip a case-insensitive
label followed by greedy whitespace from the start; if the label is not
there, the line is unchanged. -/
def stripLabelCI (label : Str) (s : Str) : Str :=
  if strStarts label (upperStr s) then (s.drop label.length).dropWhile jsWs else s

/-- Consume a case-insensitive literal (the pattern is given uppercased). -/
def eatCI : Str → Str → Option Str
  | [], s => some s
  | _ :: _, [] => none
  | p :: ps, c :: cs => if upperChar c = p then eatCI ps cs else none

/-- Consume a maximal nonempty digit run (`(\d+)` with a greedy `+`). -/
def eatDigits (s : Str) : Option (Str × Str) :=
  let d := s.takeWhile Char.isDigit
  if d = [] then none else some (d, s.dropWhile Char.isDigit)

/-- Try to match `LONGEST_BREAK_MS:\s*(\d+)\s*-\s*(\d+)\s*\((\d+)\)`
(case-insensitively) at the current position. -/
def matchBreakAt (s : Str) : Option (Str × Str × Str) :=
  match eatCI (str "LONGEST_BREAK_MS:") s with
  | none => none
  | some r0 =>
    match eatDigits (r0.dropWhile jsWs) with
    | none => none
    | some (d1, r1) =>
      match expectChar '-' (r1.dropWhile jsWs) with
      | none => none
      | some r2 =>
        match eatDigits (r2.dropWhile jsWs) with
        | none => none
        | some (d2, r3) =>
          match expectChar '(' (r3.dropWhile jsWs) with
          | none => none
          | some r4 =>
            match eatDigits r4 with
            | none => none
            | some (d3, r5) =>
              match expectChar ')' r5 with
              | none => none
              | some _ => some (d1, d2, d3)

/-- Unanchored first-match search for the `LONGEST_BREAK_MS` pattern
(`breakLine.match(...)`). -/
def matchBreak : Str → Option (Str × Str × Str)
  | [] => none
  | c :: rest =>
    match matchBreakAt (c :: rest) with
    | some r => some r
    | none => matchBreak rest

/-- `parseGeminiFourLines` from `server/index.js`. -/
def parseGeminiFourLines (rawText : Str) : GeminiParsed :=
  let lines := geminiLines rawText
  let showLine := findLabel (str "SHOW:") lines
  let breakLine := findLabel (str "LONGEST_BREAK_MS:") lines
  let qLine := findLabel (str "CLIP_1_QUESTION:") lines
  let aLine := findLabel (str "CLIP_2_ANSWER:") lines
  let show0 := jsTrim (stripLabelCI (str "SHOW:") showLine)
  let showName := if show0 = [] then str "Unknown" else show0
  let breaks :=
    match matchBreak breakLine with
    | none => (none, none, none)
    | some (d1, d2, d3) => (some (digitsToNat d1), some (digitsToNat d2), some (digitsToNat d3))
  let clip1Question := jsTrim (stripLabelCI (str "CLIP_1_QUESTION:") qLine)
  let clip2Answer := jsTrim (stripLabelCI (str "CLIP_2_ANSWER:") aLine)
  ⟨showName, breaks.1, breaks.2.1, breaks.2.2, clip1Question, clip2Answer⟩

/-! ## Prompt construction (`buildGeminiPrompt`) -/

/-- Decimal representation of a natural number. -/
def natRepr (n : Nat) : Str := Nat.toDigits 10 n

/-- JSON string escaping as in `JSON.stringify` (ASCII control characters). -/
def jsonEscapeChar (c : Char) : Str :=
  if c = '"' then ['\\', '"']
  else if c = '\\' then ['\\', '\\']
  else if c = '\n' then ['\\', 'n']
  else if c = '\r' then ['\\', 'r']
  else if c = '\t' then ['\\', 't']
  else if c = '\x08' then ['\\', 'b']
  else if c = '\x0c' then ['\\', 'f']
  else if c.toNat < 32 then
    ['\\', 'u', '0', '0', Nat.digitChar (c.toNat / 16), Nat.digitChar (c.toNat % 16)]
  else [c]

/-- `JSON.stringify` of a string. -/
def jsonString (s : Str) : Str :=
  '"' :: (s.flatMap jsonEscapeChar) ++ ['"']

/-- `JSON.stringify` of one compacted segment (keys in insertion order). -/
def jsonSegment (s : SrtSegment) : Str :=
  [Char.ofNat 123] ++ str "\"startMs\":" ++ natRepr s.startMs ++
  str ",\"endMs\":" ++ natRepr s.endMs ++
  str ",\"text\":" ++ jsonString s.text ++ [Char.ofNat 125]

/-- `JSON.stringify` of the compacted segment array. -/
def jsonSegments (segs : List SrtSegment) : Str :=
  '[' :: joinStr (str ",") (segs.map jsonSegment) ++ [']']

/-- `buildGeminiPrompt` from `server/index.js`: embeds the user goal, the
first 220 segments compacted to `startMs`/`endMs`/`text`, and the first
4000 characters of the full transcript into the instruction template, then
trims the result. -/
def buildGeminiPrompt (userGoal : Str) (segments : List SrtSegment) (fullTranscript : Str) : Str :=
  let compactSegments := (segments.take 220).map (fun s => SrtSegment.mk s.startMs s.endMs s.text)
  jsTrim (
    str "Return ONLY the 4 lines requested below. Do NOT include reasoning, analysis, evidence, markdown, or extra lines.\n\nOUTPUT FORMAT (EXACTLY 4 LINES):\nSHOW: <show name or Unknown>\nLONGEST_BREAK_MS: <breakStartMs>-<breakEndMs> (<breakDurationMs>)\nCLIP_1_QUESTION: <single-line voiceover script, EXACTLY 8 seconds, ends with a clear question>\nCLIP_2_ANSWER: <single-line voiceover script, EXACTLY 8 seconds, immediately answers clip 1>\n\nRULES:\n- Both scripts must be SINGLE LINE (no newline characters). Use \"...\" for pauses.\n- Educational and based on USER_GOAL.\n- Do NOT imitate/impersonate any specific copyrighted character. Use show-inspired narrator vibe only.\n\nUSER_GOAL:\n"
    ++ userGoal
    ++ str "\n\nTRANSCRIPT_SEGMENTS (ms):\n"
    ++ jsonSegments compactSegments
    ++ str "\n\nFULL_TRANSCRIPT:\n"
    ++ fullTranscript.take 4000)

/-! ## Frame-rate probing (`probeVideoProps`)

Floating-point numbers are modelled by rationals: the guard logic of the
source (`Number.isFinite`, `b !== 0`, `0 < v < 240`) is about finite
values, and non-finite results (`NaN`, division failures) are modelled by
`Option.none`. -/

/-- JavaScript `Number(string)` restricted to the finite decimal literals
relevant here: optional sign, integer digits, optional fractional digits.
`none` models a non-finite result (`NaN`, `Infinity`), so
`Number.isFinite(x)` is `x.isSome` in this model.  The exotic literal
forms (`0x..`, exponents) are not modelled. -/
def jsNumber (s0 : Str) : Option ℚ :=
  let s := jsTrim s0
  if s = [] then some 0
  else
    let neg : Bool := s.headD ' ' = '-'
    let s1 := if s.headD ' ' = '-' || s.headD ' ' = '+' then s.tail else s
    let ip := s1.takeWhile Char.isDigit
    let val : Option ℚ :=
      match s1.dropWhile Char.isDigit with
      | [] => if ip = [] then none else some (digitsToNat ip : ℚ)
      | '.' :: r2 =>
        let fp := r2.takeWhile Char.isDigit
        if r2.dropWhile Char.isDigit ≠ [] then none
        else if ip = [] ∧ fp = [] then none
        else some ((digitsToNat ip : ℚ) + (digitsToNat fp : ℚ) / (10 : ℚ) ^ fp.length)
      | _ => none
    match val with
    | none => none
    | some v => some (if neg then -v else v)

/-- The `r_frame_rate` handling of `probeVideoProps`: parse `"a/b"`, use
`a / b` as the frame rate only when both parts are finite numbers, `b` is
nonzero and the quotient lies strictly between 0 and 240; default 30
otherwise (also when the field is absent or has no `/`). -/
def fpsOfRFrameRate (r : Option Str) : ℚ :=
  match r with
  | none => 30
  | some s =>
    if containsChar '/' s then
      match splitChar '/' s with
      | p0 :: p1 :: _ =>
        match jsNumber p0, jsNumber p1 with
        | some a, some b =>
          if b ≠ 0 then
            let v := a / b
            if 0 < v ∧ v < 240 then v else 30
          else 30
        | _, _ => 30
      | _ => 30
    else 30

/-- The first video stream as reported by the probe (fields may be absent
in the JSON). -/
structure ProbedStream where
  width : Option Int
  height : Option Int
  rFrameRate : Option Str
deriving Repr, Inhabited

/-- Result of `probeVideoProps`. -/
structure VideoProps where
  width : Int
  height : Int
  fps : ℚ
deriving Repr, DecidableEq

/-- `probeVideoProps` from `server/index.js` (the pure part, after the
probe subprocess returned the first stream's fields):
`Number(s.width) || 1280`, `Number(s.height) || 720`, and the frame-rate
fraction logic. -/
def probeVideoProps (s : ProbedStream) : VideoProps :=
  let width := match s.width with
    | some w => if w = 0 then 1280 else w
    | none => 1280
  let height := match s.height with
    | some h => if h = 0 then 720 else h
    | none => 720
  ⟨width, height, fpsOfRFrameRate s.rFrameRate⟩

/-! ## Splice request validation (`POST /api/splice`) -/

/-- JavaScript `Number.parseInt(s, 10)`: skip leading whitespace, optional
sign, then the maximal run of decimal digits; `none` models `NaN` (no
digits). -/
def parseIntJs (s : Str) : Option Int :=
  let s1 := s.dropWhile jsWs
  let neg : Bool := s1.headD ' ' = '-'
  let s2 := if s1.headD ' ' = '-' || s1.headD ' ' = '+' then s1.tail else s1
  let d := s2.takeWhile Char.isDigit
  if d = [] then none
  else some (if neg then -(digitsToNat d : Int) else (digitsToNat d : Int))

/-- The timestamp validation of the splice route: a missing/empty (falsy)
field is rejected as required; then `Number.parseInt(_, 10)` must yield a
finite, non-negative value.  `Except.ok` carries the parsed millisecond
timestamp the handler proceeds with. -/
def spliceTimestampCheck (timestamp : Option Str) : Except (Nat × Str) Int :=
  let tsStr := timestamp.getD []
  if tsStr = [] then .error (400, str "timestamp is required.")
  else
    match parseIntJs tsStr with
    | none => .error (400, str "timestamp must be a non-negative integer (ms).")
    | some n =>
      if n < 0 then .error (400, str "timestamp must be a non-negative integer (ms).")
      else .ok n

/-! ## Data model: submissions and the flat-file store

The JSON submission records of `server/index.js`, with the flat file
modelled as a `List Submission` threaded through each handler.  External
effects (subprocesses, network calls, the filesystem) appear as explicit
oracle arguments of type `Except Str _` (an exception or a result). -/

/-- Metadata of the uploaded file as stored in a submission. -/
structure FileMeta where
  originalName : Str
  storedName : Str
  path : Str
  sizeBytes : Nat
  mimetype : Str
deriving DecidableEq, Repr, Inhabited

/-- The transcript record written by the transcription endpoint. -/
structure TranscriptRec where
  provider : Str
  text : Str
  segments : List SrtSegment
  createdAt : Str
deriving DecidableEq, Repr, Inhabited

/-- The analysis record written by the analyze endpoint. -/
structure GeminiRec where
  model : Str
  createdAt : Str
  rawText : Str
  parsed : GeminiParsed
deriving DecidableEq, Repr, Inhabited

/-- The clip-generation record written by the veo endpoint. -/
structure VeoRec where
  updatedAt : Str
  referenceScreenshotUrl : Str
  clip1Url : Str
  clip2Url : Str
  prompt1 : Str
  prompt2 : Str
deriving DecidableEq, Repr, Inhabited

/-- One submission record. -/
structure Submission where
  id : Str
  createdAt : Str
  prompt : Str
  transcript : Option TranscriptRec
  gemini : Option GeminiRec
  veo : Option VeoRec
  file : FileMeta
deriving DecidableEq, Repr, Inhabited

/-! ## Upload (`multer` configuration and `POST /api/upload`) -/

/-- `MAX_BYTES` from `server/index.js`: 25 MB. -/
def MAX_BYTES : Nat := 25 * 1024 * 1024

/-- The allowed MIME types of `fileFilter`. -/
def allowedMimes : List Str := [str "video/mp4", str "video/webm", str "video/quicktime"]

/-- `fileFilter` from `server/index.js`: accept exactly the allowed MIME
types. -/
def fileFilter (mimetype : Str) : Bool := allowedMimes.contains mimetype

/-- An incoming multipart file (client-supplied metadata). -/
structure FileIn where
  originalname : Str
  mimetype : Str
  size : Nat
deriving DecidableEq, Repr, Inhabited

/-- An upload request: optional file part, optional `prompt` text field. -/
structure UploadReq where
  file : Option FileIn
  prompt : Option Str
deriving Repr, Inhabited

/-- Errors produced by the upload middleware, as discriminated by the
error-handling middleware at the bottom of `server/index.js`. -/
inductive MulterErr where
  /-- `limits.fileSize` exceeded (`err.code === "LIMIT_FILE_SIZE"`). -/
  | limitFileSize
  /-- The `fileFilter` rejection with its message. -/
  | badType (msg : Str)
deriving DecidableEq, Repr

/-- Modelled from the spec: the upload middleware itself is an external
library; per the spec, uploads of 25 MB or more are rejected with the
size-limit error, uploads of a disallowed MIME type are rejected by
`fileFilter` before any write, and otherwise the file is written to disk
under a fresh stored name.  Returns the stored file record and the updated
list of files on disk. -/
def multerPhase (req : UploadReq) (storedName freshPath : Str) (disk : List Str) :
    Except (MulterErr × List Str) (Option FileMeta × List Str) :=
  match req.file with
  | none => .ok (none, disk)
  | some f =>
    if !fileFilter f.mimetype then
      .error (.badType (str "Only mp4, webm, or mov videos are allowed."), disk)
    else if f.size ≥ MAX_BYTES then
      .error (.limitFileSize, disk)
    else
      .ok (some ⟨f.originalname, storedName, freshPath, f.size, f.mimetype⟩,
           disk ++ [freshPath])

/-- Uniform JSON envelope of an endpoint response, together with the
resulting submission store and files on disk. -/
structure UploadOut where
  status : Nat
  ok : Bool
  submission : Option Submission
  error : Option Str
  store : List Submission
  disk : List Str
deriving Repr

/-- The `POST /api/upload` handler body (after the middleware): require a
non-empty trimmed prompt (deleting the already-written file otherwise),
require the file, build the submission and `unshift` it onto the store. -/
def uploadHandler (req : UploadReq) (fileMeta : Option FileMeta) (newId now : Str)
    (store : List Submission) (disk : List Str) : UploadOut :=
  let prompt := jsTrim (req.prompt.getD [])
  if prompt = [] then
    let disk2 := match fileMeta with
      | some f => disk.erase f.path
      | none => disk
    ⟨400, false, none, some (str "Prompt is required."), store, disk2⟩
  else
    match fileMeta with
    | none => ⟨400, false, none, some (str "Video file is required."), store, disk⟩
    | some f =>
      let submission : Submission := ⟨newId, now, prompt, none, none, none, f⟩
      ⟨200, true, some submission, none, submission :: store, disk⟩

/-- The complete upload route: middleware then handler, with the error
middleware mapping a size-limit error to 413 and a filter error to 400. -/
def uploadRoute (req : UploadReq) (storedName freshPath newId now : Str)
    (store : List Submission) (disk : List Str) : UploadOut :=
  match multerPhase req storedName freshPath disk with
  | .error (.limitFileSize, disk2) =>
    ⟨413, false, none, some (str "File must be under 25 MB."), store, disk2⟩
  | .error (.badType msg, disk2) =>
    ⟨400, false, none, some msg, store, disk2⟩
  | .ok (fileMeta, disk2) => uploadHandler req fileMeta newId now store disk2

/-! ## Transcription (`transcribeWithWhisperCpp` and `POST /api/transcribe/:id`) -/

/-- `transcribeWithWhisperCpp` from `server/index.js`, with the external
effects as oracles: the configured model path, whether it exists, the
audio-extraction and speech-to-text subprocess outcomes, and the contents
of the `.txt`/`.srt` output files when they exist.  On success, the text
is the trimmed `.txt` contents (or `""`), and the segments are
`parseSrt` of the `.srt` contents when those are non-empty (or `[]`). -/
def transcribeWithWhisperCpp (modelPath : Option Str) (modelExists : Bool)
    (ffmpegRun whisperRun : Except Str Unit) (txtFile srtFile : Option Str) :
    Except Str (Str × List SrtSegment) :=
  match modelPath with
  | none => .error (str "Missing WHISPER_MODEL_PATH in .env (project root).")
  | some mp =>
    if !modelExists then .error (str "Model not found at: " ++ mp)
    else
      match ffmpegRun with
      | .error e => .error e
      | .ok _ =>
        match whisperRun with
        | .error e => .error e
        | .ok _ =>
          let text := match txtFile with
            | some c => jsTrim c
            | none => []
          let srt := match srtFile with
            | some c => c
            | none => []
          let segments := if srt = [] then [] else parseSrt srt
          .ok (text, segments)

/-- Response of the transcription endpoint (JSON envelope plus resulting
store). -/
structure TranscribeOut where
  status : Nat
  ok : Bool
  transcript : Option TranscriptRec
  cached : Option Bool
  error : Option Str
  store : List Submission
deriving Repr

/-- The cache test of `POST /api/transcribe/:id`:
`sub.transcript?.text && sub.transcript.text.trim().length > 0`. -/
def cacheHit (sub : Submission) : Bool :=
  match sub.transcript with
  | none => false
  | some t => t.text ≠ [] && jsTrim t.text ≠ []

/-- `POST /api/transcribe/:id`: look up the submission; when the cache
test passes, answer with the stored transcript and `cached = true` without
touching the store or the transcriber; otherwise run the transcriber
(oracle `doTranscribe`), store its result in place and answer with
`cached = false`; a transcriber exception becomes a 500 with the store
untouched. -/
def transcribeEndpoint (store : List Submission) (id now : Str)
    (doTranscribe : Except Str (Str × List SrtSegment)) : TranscribeOut :=
  match store.findIdx? (fun s => s.id = id) with
  | none => ⟨404, false, none, none, some (str "Submission not found."), store⟩
  | some i =>
    let sub := store.getD i default
    if cacheHit sub then ⟨200, true, sub.transcript, some true, none, store⟩
    else
      match doTranscribe with
      | .error e => ⟨500, false, none, none, some e, store⟩
      | .ok (text, segments) =>
        let t : TranscriptRec := ⟨str "whisper.cpp", text, segments, now⟩
        ⟨200, true, some t, some false, none, store.set i { sub with transcript := some t }⟩

/-! ## Analysis (`POST /api/gemini/analyze/:id`) -/

/-- Response of the analysis endpoint. -/
structure AnalyzeOut where
  status : Nat
  ok : Bool
  gemini : Option GeminiRec
  error : Option Str
  store : List Submission
deriving Repr

/-- `POST /api/gemini/analyze/:id`: require an API key (500 otherwise),
look up the submission, fail with a 400 when no timestamped transcript
segments exist, otherwise build the prompt, call the model (oracle
`callModel`, a function of the prompt text), parse its four lines and
store the analysis in place. -/
def analyzeEndpoint (store : List Submission) (id : Str) (apiKey : Option Str)
    (modelName now : Str) (callModel : Str → Except Str Str) : AnalyzeOut :=
  match apiKey with
  | none => ⟨500, false, none, some (str "Missing GEMINI_API_KEY (or GOOGLE_API_KEY) in .env"), store⟩
  | some _ =>
    match store.findIdx? (fun s => s.id = id) with
    | none => ⟨404, false, none, some (str "Submission not found."), store⟩
    | some i =>
      let sub := store.getD i default
      let userGoal := sub.prompt
      let segments := match sub.transcript with
        | some t => t.segments
        | none => []
      let fullTranscript := match sub.transcript with
        | some t => t.text
        | none => []
      if segments.isEmpty then
        ⟨400, false, none, some (str "No timestamped transcript found. Run Transcribe first."), store⟩
      else
        match callModel (buildGeminiPrompt userGoal segments fullTranscript) with
        | .error e => ⟨500, false, none, some e, store⟩
        | .ok rawText =>
          let g : GeminiRec := ⟨modelName, now, rawText, parseGeminiFourLines rawText⟩
          ⟨200, true, some g, none, store.set i { sub with gemini := some g }⟩

/-! ## Clip generation (`buildVeoPrompt` and `POST /api/veo/generate/:id`) -/

/-- `buildVeoPrompt` from `server/index.js`. -/
def buildVeoPrompt (showName clipText : Str) (isQuestion : Bool) : Str :=
  let safeShow := if showName ≠ [] && showName ≠ str "Unknown" then showName
    else str "an animated show"
  let label := if isQuestion then str "QUESTION" else str "ANSWER"
  str "Create an 8-second animated educational insert inspired by the vibe of "
    ++ safeShow
    ++ str ".\nUse the provided reference image to match the scene's visual style/setting.\nTone: friendly narrator (not a specific character). Keep visuals simple and readable.\nThe narrator delivers this "
    ++ label
    ++ str " line clearly:\n\""
    ++ clipText ++ [ '"' ]

/-- Response of the veo endpoint. -/
structure VeoOut where
  status : Nat
  ok : Bool
  veo : Option VeoRec
  error : Option Str
  store : List Submission
deriving Repr

/-- `POST /api/veo/generate/:id`: look up the submission, require both
parsed clip scripts, take the mid-point screenshot (oracle), generate both
clips (oracles), then store clip URLs and prompts in place.  Any oracle
exception becomes a 500 with the store untouched. -/
def veoEndpoint (store : List Submission) (id now : Str)
    (screenshot : Except Str Str) (gen1 gen2 : Except Str Unit) : VeoOut :=
  match store.findIdx? (fun s => s.id = id) with
  | none => ⟨404, false, none, some (str "Submission not found."), store⟩
  | some i =>
    let sub := store.getD i default
    let parsed := sub.gemini.map (·.parsed)
    let clip1 := (parsed.map (·.clip1Question)).getD []
    let clip2 := (parsed.map (·.clip2Answer)).getD []
    if clip1 = [] || clip2 = [] then
      ⟨400, false, none, some (str "Missing Gemini clips. Run Analyze with Gemini first."), store⟩
    else
      match screenshot with
      | .error e => ⟨500, false, none, some e, store⟩
      | .ok screenshotUrl =>
        let showName := (parsed.map (·.showName)).getD []
        let showName := if showName = [] then str "Unknown" else showName
        let prompt1 := buildVeoPrompt showName clip1 true
        let prompt2 := buildVeoPrompt showName clip2 false
        match gen1 with
        | .error e => ⟨500, false, none, some e, store⟩
        | .ok _ =>
          match gen2 with
          | .error e => ⟨500, false, none, some e, store⟩
          | .ok _ =>
            let v : VeoRec := ⟨now, screenshotUrl,
              str "/veo/" ++ sub.id ++ str "_clip1.mp4",
              str "/veo/" ++ sub.id ++ str "_clip2.mp4",
              prompt1, prompt2⟩
            ⟨200, true, some v, none, store.set i { sub with veo := some v }⟩

/-! ## Helper lemmas about the string model -/

theorem splitChar_nil (c : Char) : splitChar c [] = [[]] := rfl

theorem splitChar_ne_nil (c : Char) (s : Str) : splitChar c s ≠ [] := by
  induction s with
  | nil => simp [splitChar]
  | cons x rest ih =>
    cases h : splitChar c rest with
    | nil => exact absurd h ih
    | cons a as =>
      simp only [splitChar, h]
      split <;> simp

theorem splitChar_of_not_mem {c : Char} {s : Str} (h : c ∉ s) : splitChar c s = [s] := by
  induction s with
  | nil => rfl
  | cons x rest ih =>
    have hx : x ≠ c := fun e => h (e ▸ List.mem_cons_self x rest)
    have hr : c ∉ rest := fun e => h (List.mem_cons_of_mem x e)
    simp [splitChar, ih hr, hx]

theorem splitChar_append {c : Char} {a : Str} (t : Str) (h : c ∉ a) :
    splitChar c (a ++ c :: t) = a :: splitChar c t := by
  induction a with
  | nil =>
    cases ht : splitChar c t with
    | nil => exact absurd ht (splitChar_ne_nil c t)
    | cons s ss => simp [splitChar, ht]
  | cons x a2 ih =>
    have hx : x ≠ c := fun e => h (e ▸ List.mem_cons_self x a2)
    have ha : c ∉ a2 := fun e => h (List.mem_cons_of_mem x e)
    simp only [List.cons_append, splitChar, List.append_eq]
    rw [ih ha]
    simp [hx]

theorem splitChar_joinStr {c : Char} {parts : List Str} (hne : parts ≠ [])
    (h : ∀ x ∈ parts, c ∉ x) : splitChar c (joinStr [c] parts) = parts := by
  induction parts with
  | nil => exact absurd rfl hne
  | cons x rest ih =>
    cases rest with
    | nil => exact splitChar_of_not_mem (h x (List.mem_cons_self x []))
    | cons y rest2 =>
      have hx : c ∉ x := h x (List.mem_cons_self _ _)
      have hrest : ∀ z ∈ y :: rest2, c ∉ z := fun z hz => h z (List.mem_cons_of_mem x hz)
      have : joinStr [c] (x :: y :: rest2) = x ++ c :: joinStr [c] (y :: rest2) := by
        simp [joinStr]
      rw [this, splitChar_append _ hx, ih (by simp) hrest]

theorem takeWhile_append_all {p : Char → Bool} {a : Str} (b : Str)
    (h : ∀ x ∈ a, p x = true) : (a ++ b).takeWhile p = a ++ b.takeWhile p := by
  induction a with
  | nil => simp
  | cons x a2 ih =>
    have hx := h x (List.mem_cons_self _ _)
    simp [List.takeWhile_cons, hx, ih (fun z hz => h z (List.mem_cons_of_mem x hz))]

theorem dropWhile_append_all {p : Char → Bool} {a : Str} (b : Str)
    (h : ∀ x ∈ a, p x = true) : (a ++ b).dropWhile p = b.dropWhile p := by
  induction a with
  | nil => simp
  | cons x a2 ih =>
    have hx := h x (List.mem_cons_self _ _)
    simp [List.dropWhile_cons, hx, ih (fun z hz => h z (List.mem_cons_of_mem x hz))]

theorem takeWhile_all {p : Char → Bool} {a : Str} (h : ∀ x ∈ a, p x = true) :
    a.takeWhile p = a := by
  have := takeWhile_append_all (p := p) [] h
  simpa using this

theorem dropWhile_all {p : Char → Bool} {a : Str} (h : ∀ x ∈ a, p x = true) :
    a.dropWhile p = [] := by
  have := dropWhile_append_all (p := p) [] h
  simpa using this

theorem jsWs_of_isDigit {c : Char} (h : c.isDigit = true) : jsWs c = false := by
  have h1 : c ≠ ' ' := by rintro rfl; exact absurd h (by decide)
  have h2 : c ≠ '\t' := by rintro rfl; exact absurd h (by decide)
  have h3 : c ≠ '\n' := by rintro rfl; exact absurd h (by decide)
  have h4 : c ≠ '\r' := by rintro rfl; exact absurd h (by decide)
  have h5 : c ≠ '\x0b' := by rintro rfl; exact absurd h (by decide)
  have h6 : c ≠ '\x0c' := by rintro rfl; exact absurd h (by decide)
  simp [jsWs, h1, h2, h3, h4, h5, h6]

theorem ne_of_isDigit {c d : Char} (h : c.isDigit = true) (hd : d.isDigit = false) :
    c ≠ d := fun e => by subst e; rw [h] at hd; cases hd

theorem jsTrim_nil : jsTrim [] = [] := rfl

theorem jsTrim_eq_self {s : Str} (h : Trimmed s = true) : jsTrim s = s := by
  cases s with
  | nil => rfl
  | cons c rest =>
    simp only [Trimmed, Bool.and_eq_true, Bool.not_eq_true'] at h
    obtain ⟨hh, hl⟩ := h
    unfold jsTrim
    rw [List.dropWhile_cons, if_neg (by simp [hh])]
    have hrev : (c :: rest).reverse ≠ [] := by simp
    cases hr : (c :: rest).reverse with
    | nil => exact absurd hr hrev
    | cons y ys =>
      have hy : y = (c :: rest).getLastD ' ' := by
        have h1 : (c :: rest).reverse.head? = some y := by rw [hr]; rfl
        rw [List.head?_reverse] at h1
        rw [List.getLastD_eq_getLast?, h1]
        rfl
      have hwy : jsWs y = false := by rw [hy]; exact hl
      rw [List.dropWhile_cons, if_neg (by simp [hwy])]
      rw [← hr, List.reverse_reverse]

theorem getLastD_append_of_ne_nil {a b : Str} (hb : b ≠ []) (d : Char) :
    (a ++ b).getLastD d = b.getLastD d := by
  rw [List.getLastD_eq_getLast?, List.getLastD_eq_getLast?, List.getLast?_append]
  cases hl : b.getLast? with
  | none =>
    rcases b with _ | ⟨x, xs⟩
    · exact absurd rfl hb
    · rw [List.getLast?_eq_getLast _ (by simp)] at hl; cases hl
  | some y => rfl

theorem trimmed_append {a b : Str} (ha : a ≠ []) (h1 : jsWs (a.headD ' ') = false)
    (hb : b ≠ []) (h2 : jsWs (b.getLastD ' ') = false) : Trimmed (a ++ b) = true := by
  cases a with
  | nil => exact absurd rfl ha
  | cons c rest =>
    simp only [List.headD_cons] at h1
    have hlast : ((c :: rest) ++ b).getLastD ' ' = b.getLastD ' ' :=
      getLastD_append_of_ne_nil hb ' '
    simp only [List.cons_append] at hlast ⊢
    simp only [Trimmed]
    rw [hlast]
    rw [List.getLastD_eq_getLast?] at h2
    simp [h1, h2]

theorem not_mem_of_forall_ne {l : Str} {d : Char} (h : ∀ x ∈ l, x ≠ d) : d ∉ l :=
  fun hm => h d hm rfl

theorem map_self {l : List Str} {f : Str → Str} (h : ∀ x ∈ l, f x = x) : l.map f = l := by
  induction l with
  | nil => rfl
  | cons x rest ih =>
    simp only [List.map_cons, h x (List.mem_cons_self _ _),
      ih (fun z hz => h z (List.mem_cons_of_mem x hz))]

theorem filter_self {l : List Str} (h : ∀ x ∈ l, x ≠ []) : l.filter (· ≠ []) = l := by
  induction l with
  | nil => rfl
  | cons x rest ih =>
    rw [List.filter_cons, if_pos (by simp [h x (List.mem_cons_self _ _)]),
      ih (fun z hz => h z (List.mem_cons_of_mem x hz))]

/-! ## Lemmas about timestamp parsing -/

theorem tsShape_elim {t : Str} (hsh : tsShape t = true) :
    ∃ a b c d e f sep g h i,
      t = [a, b, ':', c, d, ':', e, f, sep, g, h, i] ∧
      a.isDigit = true ∧ b.isDigit = true ∧ c.isDigit = true ∧ d.isDigit = true ∧
      e.isDigit = true ∧ f.isDigit = true ∧ (sep = '.' ∨ sep = ',') ∧
      g.isDigit = true ∧ h.isDigit = true ∧ i.isDigit = true := by
  unfold tsShape at hsh
  split at hsh
  next a b c1 c d c2 e f sep g h i =>
    simp only [Bool.and_eq_true, decide_eq_true_eq, Bool.or_eq_true] at hsh
    obtain ⟨⟨⟨⟨⟨⟨⟨⟨⟨⟨⟨ha, hb⟩, hc1⟩, hc⟩, hd⟩, hc2⟩, he⟩, hf⟩, hsep⟩, hg⟩, hh⟩, hi⟩ := hsh
    subst hc1; subst hc2
    exact ⟨a, b, c, d, e, f, sep, g, h, i, rfl, ha, hb, hc, hd, he, hf, hsep, hg, hh, hi⟩
  next => cases hsh

theorem digitsToNat_two (x y : Char) : digitsToNat [x, y] = 10 * digitVal x + digitVal y := by
  simp [digitsToNat, List.foldl]

theorem digitsToNat_three (x y z : Char) :
    digitsToNat [x, y, z] = 100 * digitVal x + 10 * digitVal y + digitVal z := by
  simp [digitsToNat, List.foldl]; ring

/-- `toMs` on a well-shaped timestamp computes the millisecond value of
its hour, minute, second and millisecond digit fields, for either
separator. -/
theorem toMs_shape {a b c d e f g h i sep : Char}
    (ha : a.isDigit = true) (hb : b.isDigit = true) (hc : c.isDigit = true)
    (hd : d.isDigit = true) (he : e.isDigit = true) (hf : f.isDigit = true)
    (hsep : sep = '.' ∨ sep = ',') (hg : g.isDigit = true) (hh : h.isDigit = true)
    (hi : i.isDigit = true) :
    toMs [a, b, ':', c, d, ':', e, f, sep, g, h, i] =
      (10 * digitVal a + digitVal b) * 3600000 + (10 * digitVal c + digitVal d) * 60000 +
      (10 * digitVal e + digitVal f) * 1000 +
      (100 * digitVal g + 10 * digitVal h + digitVal i) := by
  have hsepc : sep ≠ ':' := by rcases hsep with rfl | rfl <;> decide
  have m1 : ':' ∉ ([a, b] : Str) := not_mem_of_forall_ne (by
    simp only [List.mem_cons, List.not_mem_nil, or_false]
    rintro x (rfl | rfl)
    · exact ne_of_isDigit ha (by decide)
    · exact ne_of_isDigit hb (by decide))
  have m2 : ':' ∉ ([c, d] : Str) := not_mem_of_forall_ne (by
    simp only [List.mem_cons, List.not_mem_nil, or_false]
    rintro x (rfl | rfl)
    · exact ne_of_isDigit hc (by decide)
    · exact ne_of_isDigit hd (by decide))
  have m3 : ':' ∉ ([e, f, sep, g, h, i] : Str) := not_mem_of_forall_ne (by
    simp only [List.mem_cons, List.not_mem_nil, or_false]
    rintro x (rfl | rfl | rfl | rfl | rfl | rfl)
    · exact ne_of_isDigit he (by decide)
    · exact ne_of_isDigit hf (by decide)
    · exact hsepc
    · exact ne_of_isDigit hg (by decide)
    · exact ne_of_isDigit hh (by decide)
    · exact ne_of_isDigit hi (by decide))
  have hsplit : splitChar ':' [a, b, ':', c, d, ':', e, f, sep, g, h, i]
      = [[a, b], [c, d], [e, f, sep, g, h, i]] := by
    have e1 : ([a, b, ':', c, d, ':', e, f, sep, g, h, i] : Str)
        = [a, b] ++ ':' :: ([c, d] ++ ':' :: [e, f, sep, g, h, i]) := by simp
    rw [e1, splitChar_append _ m1, splitChar_append _ m2, splitChar_of_not_mem m3]
  have hnorm : replaceFirstChar '.' ',' [e, f, sep, g, h, i] = [e, f, ',', g, h, i] := by
    have hed : e ≠ '.' := ne_of_isDigit he (by decide)
    have hfd : f ≠ '.' := ne_of_isDigit hf (by decide)
    rcases hsep with rfl | rfl
    · simp [replaceFirstChar, hed, hfd]
    · have hgd : g ≠ '.' := ne_of_isDigit hg (by decide)
      have hhd : h ≠ '.' := ne_of_isDigit hh (by decide)
      have hid : i ≠ '.' := ne_of_isDigit hi (by decide)
      simp [replaceFirstChar, hed, hfd, hgd, hhd, hid]
  have m4 : ',' ∉ ([e, f] : Str) := not_mem_of_forall_ne (by
    simp only [List.mem_cons, List.not_mem_nil, or_false]
    rintro x (rfl | rfl)
    · exact ne_of_isDigit he (by decide)
    · exact ne_of_isDigit hf (by decide))
  have m5 : ',' ∉ ([g, h, i] : Str) := not_mem_of_forall_ne (by
    simp only [List.mem_cons, List.not_mem_nil, or_false]
    rintro x (rfl | rfl | rfl)
    · exact ne_of_isDigit hg (by decide)
    · exact ne_of_isDigit hh (by decide)
    · exact ne_of_isDigit hi (by decide))
  have hsplit2 : splitChar ',' [e, f, ',', g, h, i] = [[e, f], [g, h, i]] := by
    have e2 : ([e, f, ',', g, h, i] : Str) = [e, f] ++ ',' :: [g, h, i] := by simp
    rw [e2, splitChar_append _ m4, splitChar_of_not_mem m5]
  unfold toMs
  rw [hsplit]
  simp only
  rw [hnorm, hsplit2]
  simp only [digitsToNat_two, digitsToNat_three]

theorem tsShape_length {t : Str} (h : tsShape t = true) : t.length = 12 := by
  obtain ⟨a, b, c, d, e, f, sep, g, h2, i, ht, _⟩ := tsShape_elim h
  rw [ht]; rfl

theorem tsShape_ne_nil {t : Str} (h : tsShape t = true) : t ≠ [] := by
  intro e; rw [e] at h; cases h

theorem tsShape_head_not_ws {t : Str} (h : tsShape t = true) : jsWs (t.headD ' ') = false := by
  obtain ⟨a, b, c, d, e, f, sep, g, h2, i, ht, ha, _⟩ := tsShape_elim h
  rw [ht]
  exact jsWs_of_isDigit ha

theorem tsShape_last_not_ws {t : Str} (h : tsShape t = true) : jsWs (t.getLastD ' ') = false := by
  obtain ⟨a, b, c, d, e, f, sep, g, h2, i, ht, _, _, _, _, _, _, _, _, _, hi⟩ := tsShape_elim h
  rw [ht]
  exact jsWs_of_isDigit hi

theorem tsShape_no_nl {t : Str} (h : tsShape t = true) : '\n' ∉ t := by
  obtain ⟨a, b, c, d, e, f, sep, g, h2, i, ht, ha, hb, hc, hd, he, hf, hsep, hg, hh, hi⟩ :=
    tsShape_elim h
  rw [ht]
  refine not_mem_of_forall_ne ?_
  simp only [List.mem_cons, List.not_mem_nil, or_false]
  rintro x (rfl | rfl | rfl | rfl | rfl | rfl | rfl | rfl | rfl | rfl | rfl | rfl)
  · exact ne_of_isDigit ha (by decide)
  · exact ne_of_isDigit hb (by decide)
  · decide
  · exact ne_of_isDigit hc (by decide)
  · exact ne_of_isDigit hd (by decide)
  · decide
  · exact ne_of_isDigit he (by decide)
  · exact ne_of_isDigit hf (by decide)
  · rcases hsep with rfl | rfl <;> decide
  · exact ne_of_isDigit hg (by decide)
  · exact ne_of_isDigit hh (by decide)
  · exact ne_of_isDigit hi (by decide)

theorem eatTimestamp_append {t1 : Str} (r : Str) (hlen : t1.length = 12)
    (h : tsShape t1 = true) : eatTimestamp (t1 ++ r) = some (t1, r) := by
  unfold eatTimestamp
  rw [← hlen, List.take_left, List.drop_left]
  simp [h]

theorem dropWhile_eq_self_of_head {l : Str} (hne : l ≠ []) (h : jsWs (l.headD ' ') = false) :
    l.dropWhile jsWs = l := by
  cases l with
  | nil => exact absurd rfl hne
  | cons c rest =>
    simp only [List.headD_cons] at h
    rw [List.dropWhile_cons, if_neg (by simp [h])]

theorem matchTimeAt_render {t1 t2 : Str} (h1 : tsShape t1 = true) (h2 : tsShape t2 = true) :
    matchTimeAt (t1 ++ (str " --> " ++ t2)) = some (t1, t2) := by
  unfold matchTimeAt
  rw [eatTimestamp_append _ (tsShape_length h1) h1]
  simp only
  have e1 : (str " --> " ++ t2) = ' ' :: '-' :: '-' :: '>' :: (' ' :: t2) := rfl
  rw [e1]
  have hd3 : List.dropWhile jsWs t2 = t2 :=
    dropWhile_eq_self_of_head (tsShape_ne_nil h2) (tsShape_head_not_ws h2)
  have hts2 := eatTimestamp_append [] (tsShape_length h2) h2
  rw [List.append_nil] at hts2
  simp [expectChar, List.dropWhile_cons, jsWs, hd3, hts2]

theorem matchTime_render {t1 t2 : Str} (h1 : tsShape t1 = true) (h2 : tsShape t2 = true) :
    matchTime (t1 ++ (str " --> " ++ t2)) = some (t1, t2) := by
  have hAt := matchTimeAt_render h1 h2
  obtain ⟨x, xs, hx⟩ : ∃ x xs, t1 = x :: xs := by
    cases t1 with
    | nil => exact absurd h1 (by decide)
    | cons x xs => exact ⟨x, xs, rfl⟩
  rw [hx] at hAt ⊢
  rw [List.cons_append] at hAt ⊢
  simp only [matchTime]
  rw [hAt]

theorem parseBlockLines_render {l0 l1 : Str} {rest : List Str} {t1 t2 : Str}
    (hr : rest ≠ []) (hm : matchTime l1 = some (t1, t2)) :
    parseBlockLines (l0 :: l1 :: rest) = some ⟨toMs t1, toMs t2, joinStr (str " ") rest⟩ := by
  simp [parseBlockLines, hr, hm]

theorem blockLines_render {l0 tsline : Str} {textLines : List Str}
    (h0 : Trimmed l0 = true) (h0n : l0 ≠ []) (h0nl : '\n' ∉ l0)
    (hts : Trimmed tsline = true) (htsn : tsline ≠ []) (htsnl : '\n' ∉ tsline)
    (htl : textLines ≠ []) (hT : ∀ l ∈ textLines, Trimmed l = true ∧ l ≠ [] ∧ '\n' ∉ l) :
    blockLines (l0 ++ '\n' :: (tsline ++ '\n' :: joinStr ['\n'] textLines))
      = l0 :: tsline :: textLines := by
  unfold blockLines
  rw [splitChar_append _ h0nl, splitChar_append _ htsnl,
    splitChar_joinStr htl (fun x hx => (hT x hx).2.2)]
  rw [show ((l0 :: tsline :: textLines).map jsTrim) = l0 :: tsline :: textLines from ?_]
  · exact filter_self (by
      simp only [List.mem_cons]
      rintro x (rfl | rfl | hx)
      · exact h0n
      · exact htsn
      · exact (hT x hx).2.1)
  · exact map_self (by
      simp only [List.mem_cons]
      rintro x (rfl | rfl | hx)
      · exact jsTrim_eq_self h0
      · exact jsTrim_eq_self hts
      · exact jsTrim_eq_self (hT x hx).1)

/-! ## Lemmas for the 4-line response parser -/

theorem append_ne_nil_left {a : Str} (b : Str) (ha : a ≠ []) : a ++ b ≠ [] :=
  fun e => ha (List.append_eq_nil.mp e).1

theorem headD_append_left {a b : Str} (ha : a ≠ []) (d : Char) :
    (a ++ b).headD d = a.headD d := by
  cases a with
  | nil => exact absurd rfl ha
  | cons c rest => rfl

theorem not_mem_append_char {c : Char} {a b : Str} (ha : c ∉ a) (hb : c ∉ b) :
    c ∉ a ++ b := fun hm => (List.mem_append.mp hm).elim ha hb

theorem not_mem_of_all_digit {d : Char} (hd : d.isDigit = false) {l : Str}
    (h : ∀ x ∈ l, x.isDigit = true) : d ∉ l :=
  fun hm => by rw [h d hm] at hd; cases hd

theorem trimmed_head {s : Str} (h : Trimmed s = true) (hn : s ≠ []) :
    jsWs (s.headD ' ') = false := by
  cases s with
  | nil => exact absurd rfl hn
  | cons c rest =>
    simp only [Trimmed, Bool.and_eq_true, Bool.not_eq_true'] at h
    exact h.1

theorem trimmed_last {s : Str} (h : Trimmed s = true) (hn : s ≠ []) :
    jsWs (s.getLastD ' ') = false := by
  cases s with
  | nil => exact absurd rfl hn
  | cons c rest =>
    simp only [Trimmed, Bool.and_eq_true, Bool.not_eq_true'] at h
    exact h.2

theorem strStarts_append_of {p a : Str} (y : Str) (h : strStarts p a = true) :
    strStarts p (a ++ y) = true := by
  induction p generalizing a with
  | nil => rfl
  | cons c ps ih =>
    cases a with
    | nil => cases h
    | cons b bs =>
      simp only [strStarts, Bool.and_eq_true, decide_eq_true_eq] at h
      simp only [List.cons_append, strStarts, Bool.and_eq_true, decide_eq_true_eq]
      exact ⟨h.1, ih (a := bs) h.2⟩

theorem strStarts_append_false {p a : Str} (y : Str)
    (h : strStarts (p.take a.length) a = false) : strStarts p (a ++ y) = false := by
  induction a generalizing p with
  | nil => cases h
  | cons b bs ih =>
    cases p with
    | nil => cases h
    | cons c ps =>
      simp only [List.length_cons, List.take_succ_cons, strStarts, Bool.and_eq_false_iff] at h
      simp only [List.cons_append, strStarts, Bool.and_eq_false_iff]
      rcases h with h | h
      · exact Or.inl h
      · exact Or.inr (ih (p := ps) h)

theorem upperStr_append (a b : Str) : upperStr (a ++ b) = upperStr a ++ upperStr b :=
  List.map_append upperChar a b

theorem eatDigits_append {d : Str} (rest : Str) (hd : d ≠ [])
    (hall : ∀ x ∈ d, x.isDigit = true)
    (hstop : rest = [] ∨ (rest.headD ' ').isDigit = false) :
    eatDigits (d ++ rest) = some (d, rest) := by
  have htake : (d ++ rest).takeWhile Char.isDigit = d := by
    rw [takeWhile_append_all rest hall]
    rcases hstop with rfl | hh
    · simp
    · cases rest with
      | nil => simp
      | cons r0 r2 =>
        simp only [List.headD_cons] at hh
        rw [List.takeWhile_cons, if_neg (by simp [hh]), List.append_nil]
  have hdrop : (d ++ rest).dropWhile Char.isDigit = rest := by
    rw [dropWhile_append_all rest hall]
    rcases hstop with rfl | hh
    · simp
    · cases rest with
      | nil => simp
      | cons r0 r2 =>
        simp only [List.headD_cons] at hh
        rw [List.dropWhile_cons, if_neg (by simp [hh])]
  unfold eatDigits
  rw [htake, hdrop, if_neg hd]

theorem dropWhile_ws_digits {d : Str} (rest : Str) (hd : d ≠ [])
    (hall : ∀ x ∈ d, x.isDigit = true) :
    (d ++ rest).dropWhile jsWs = d ++ rest := by
  refine dropWhile_eq_self_of_head (append_ne_nil_left rest hd) ?_
  rw [headD_append_left hd]
  cases d with
  | nil => exact absurd rfl hd
  | cons c cs => exact jsWs_of_isDigit (hall c (List.mem_cons_self _ _))

theorem geminiLines_join {lines : List Str} (hne : lines ≠ [])
    (h : ∀ l ∈ lines, Trimmed l = true ∧ l ≠ [] ∧ '\n' ∉ l) :
    geminiLines (joinStr ['\n'] lines) = lines := by
  unfold geminiLines
  rw [splitChar_joinStr hne (fun x hx => (h x hx).2.2)]
  rw [map_self (fun x hx => jsTrim_eq_self (h x hx).1)]
  exact filter_self (fun x hx => (h x hx).2.1)

theorem matchBreakAt_render {d1 d2 d3 : Str}
    (h1n : d1 ≠ []) (h1 : ∀ x ∈ d1, x.isDigit = true)
    (h2n : d2 ≠ []) (h2 : ∀ x ∈ d2, x.isDigit = true)
    (h3n : d3 ≠ []) (h3 : ∀ x ∈ d3, x.isDigit = true) :
    matchBreakAt (str "LONGEST_BREAK_MS: "
        ++ (d1 ++ (str "-" ++ (d2 ++ (str " (" ++ (d3 ++ str ")"))))))
      = some (d1, d2, d3) := by
  have e0 : eatCI (str "LONGEST_BREAK_MS:")
      (str "LONGEST_BREAK_MS: " ++ (d1 ++ (str "-" ++ (d2 ++ (str " (" ++ (d3 ++ str ")"))))))
      = some (' ' :: (d1 ++ (str "-" ++ (d2 ++ (str " (" ++ (d3 ++ str ")")))))) := rfl
  unfold matchBreakAt
  rw [e0]
  simp only
  have e1 : List.dropWhile jsWs
      (' ' :: (d1 ++ (str "-" ++ (d2 ++ (str " (" ++ (d3 ++ str ")"))))))
      = d1 ++ (str "-" ++ (d2 ++ (str " (" ++ (d3 ++ str ")")))) := by
    rw [List.dropWhile_cons, if_pos (by decide)]
    exact dropWhile_ws_digits _ h1n h1
  rw [e1]
  have e2 : eatDigits (d1 ++ ('-' :: (d2 ++ (str " (" ++ (d3 ++ str ")")))))
      = some (d1, '-' :: (d2 ++ (str " (" ++ (d3 ++ str ")")))) :=
    eatDigits_append _ h1n h1 (Or.inr rfl)
  rw [show (d1 ++ (str "-" ++ (d2 ++ (str " (" ++ (d3 ++ str ")")))))
      = d1 ++ ('-' :: (d2 ++ (str " (" ++ (d3 ++ str ")")))) from rfl, e2]
  simp only
  rw [List.dropWhile_cons, if_neg (by decide)]
  have e4 : expectChar '-' ('-' :: (d2 ++ (str " (" ++ (d3 ++ str ")"))))
      = some (d2 ++ (str " (" ++ (d3 ++ str ")"))) := rfl
  rw [e4]
  simp only
  rw [dropWhile_ws_digits _ h2n h2]
  have e6 : eatDigits (d2 ++ (str " (" ++ (d3 ++ str ")")))
      = some (d2, str " (" ++ (d3 ++ str ")")) :=
    eatDigits_append _ h2n h2 (Or.inr rfl)
  rw [e6]
  simp only
  have e7 : List.dropWhile jsWs (str " (" ++ (d3 ++ str ")")) = '(' :: (d3 ++ str ")") := by
    show List.dropWhile jsWs (' ' :: ('(' :: (d3 ++ str ")"))) = '(' :: (d3 ++ str ")")
    rw [List.dropWhile_cons, if_pos (by decide), List.dropWhile_cons, if_neg (by decide)]
  rw [e7]
  have e8 : expectChar '(' ('(' :: (d3 ++ str ")")) = some (d3 ++ str ")") := rfl
  rw [e8]
  simp only
  have e9 : eatDigits (d3 ++ str ")") = some (d3, str ")") :=
    eatDigits_append _ h3n h3 (Or.inr rfl)
  rw [e9]
  simp only
  have e10 : expectChar ')' (str ")") = some [] := rfl
  rw [e10]

theorem matchBreak_render {d1 d2 d3 : Str}
    (h1n : d1 ≠ []) (h1 : ∀ x ∈ d1, x.isDigit = true)
    (h2n : d2 ≠ []) (h2 : ∀ x ∈ d2, x.isDigit = true)
    (h3n : d3 ≠ []) (h3 : ∀ x ∈ d3, x.isDigit = true) :
    matchBreak (str "LONGEST_BREAK_MS: "
        ++ (d1 ++ (str "-" ++ (d2 ++ (str " (" ++ (d3 ++ str ")"))))))
      = some (d1, d2, d3) := by
  have hAt := matchBreakAt_render h1n h1 h2n h2 h3n h3
  show matchBreak ('L' :: (str "ONGEST_BREAK_MS: "
      ++ (d1 ++ (str "-" ++ (d2 ++ (str " (" ++ (d3 ++ str ")"))))))) = some (d1, d2, d3)
  simp only [matchBreak]
  rw [show ('L' :: (str "ONGEST_BREAK_MS: "
      ++ (d1 ++ (str "-" ++ (d2 ++ (str " (" ++ (d3 ++ str ")")))))))
      = str "LONGEST_BREAK_MS: "
        ++ (d1 ++ (str "-" ++ (d2 ++ (str " (" ++ (d3 ++ str ")"))))) from rfl, hAt]

theorem stripLabelCI_space (lbl s line : Str) (hline : line = lbl ++ (' ' :: s))
    (hstart : strStarts lbl (upperStr line) = true)
    (hs : Trimmed s = true) (hn : s ≠ []) : stripLabelCI lbl line = s := by
  unfold stripLabelCI
  rw [if_pos hstart, hline, List.drop_left]
  rw [List.dropWhile_cons, if_pos (by decide)]
  exact dropWhile_eq_self_of_head hn (trimmed_head hs hn)

/-- A well-formed four-line model response parses into all four fields. -/
theorem parseGemini_fourLines_complete {s d1 d2 d3 q a : Str}
    (hst : Trimmed s = true) (hsn : s ≠ []) (hsnl : '\n' ∉ s)
    (hqt : Trimmed q = true) (hqn : q ≠ []) (hqnl : '\n' ∉ q)
    (hat : Trimmed a = true) (han : a ≠ []) (hanl : '\n' ∉ a)
    (h1n : d1 ≠ []) (h1 : ∀ x ∈ d1, x.isDigit = true)
    (h2n : d2 ≠ []) (h2 : ∀ x ∈ d2, x.isDigit = true)
    (h3n : d3 ≠ []) (h3 : ∀ x ∈ d3, x.isDigit = true) :
    parseGeminiFourLines (joinStr ['\n']
        [str "SHOW: " ++ s,
         str "LONGEST_BREAK_MS: " ++ (d1 ++ (str "-" ++ (d2 ++ (str " (" ++ (d3 ++ str ")"))))),
         str "CLIP_1_QUESTION: " ++ q,
         str "CLIP_2_ANSWER: " ++ a])
      = ⟨s, some (digitsToNat d1), some (digitsToNat d2), some (digitsToNat d3), q, a⟩ := by
  have hz3 : (d3 ++ str ")") ≠ [] := append_ne_nil_left _ h3n
  have hz2 : (str " (" ++ (d3 ++ str ")")) ≠ [] := append_ne_nil_left _ (by decide)
  have hz1 : (d2 ++ (str " (" ++ (d3 ++ str ")"))) ≠ [] := append_ne_nil_left _ h2n
  have hz0 : (str "-" ++ (d2 ++ (str " (" ++ (d3 ++ str ")")))) ≠ [] :=
    append_ne_nil_left _ (by decide)
  have hz : (d1 ++ (str "-" ++ (d2 ++ (str " (" ++ (d3 ++ str ")"))))) ≠ [] :=
    append_ne_nil_left _ h1n
  have g1 : (d3 ++ str ")").getLastD ' ' = ')' := by
    rw [getLastD_append_of_ne_nil (by decide)]
    rfl
  have g2 : (str " (" ++ (d3 ++ str ")")).getLastD ' ' = ')' := by
    rw [getLastD_append_of_ne_nil hz3]
    exact g1
  have g3 : (d2 ++ (str " (" ++ (d3 ++ str ")"))).getLastD ' ' = ')' := by
    rw [getLastD_append_of_ne_nil hz2]
    exact g2
  have g4 : (str "-" ++ (d2 ++ (str " (" ++ (d3 ++ str ")")))).getLastD ' ' = ')' := by
    rw [getLastD_append_of_ne_nil hz1]
    exact g3
  have g5 : (d1 ++ (str "-" ++ (d2 ++ (str " (" ++ (d3 ++ str ")"))))).getLastD ' ' = ')' := by
    rw [getLastD_append_of_ne_nil hz0]
    exact g4
  have hT1 : Trimmed (str "SHOW: " ++ s) = true :=
    trimmed_append (by decide) (by decide) hsn (trimmed_last hst hsn)
  have hT2 : Trimmed (str "LONGEST_BREAK_MS: "
      ++ (d1 ++ (str "-" ++ (d2 ++ (str " (" ++ (d3 ++ str ")")))))) = true :=
    trimmed_append (by decide) (by decide) hz (by rw [g5]; decide)
  have hT3 : Trimmed (str "CLIP_1_QUESTION: " ++ q) = true :=
    trimmed_append (by decide) (by decide) hqn (trimmed_last hqt hqn)
  have hT4 : Trimmed (str "CLIP_2_ANSWER: " ++ a) = true :=
    trimmed_append (by decide) (by decide) han (trimmed_last hat han)
  have hnl2 : '\n' ∉ (str "LONGEST_BREAK_MS: "
      ++ (d1 ++ (str "-" ++ (d2 ++ (str " (" ++ (d3 ++ str ")")))))) :=
    not_mem_append_char (by decide)
      (not_mem_append_char (not_mem_of_all_digit (by decide) h1)
        (not_mem_append_char (by decide)
          (not_mem_append_char (not_mem_of_all_digit (by decide) h2)
            (not_mem_append_char (by decide)
              (not_mem_append_char (not_mem_of_all_digit (by decide) h3) (by decide))))))
  have hj : geminiLines (joinStr ['\n']
      [str "SHOW: " ++ s,
       str "LONGEST_BREAK_MS: " ++ (d1 ++ (str "-" ++ (d2 ++ (str " (" ++ (d3 ++ str ")"))))),
       str "CLIP_1_QUESTION: " ++ q,
       str "CLIP_2_ANSWER: " ++ a])
      = [str "SHOW: " ++ s,
         str "LONGEST_BREAK_MS: " ++ (d1 ++ (str "-" ++ (d2 ++ (str " (" ++ (d3 ++ str ")"))))),
         str "CLIP_1_QUESTION: " ++ q,
         str "CLIP_2_ANSWER: " ++ a] := by
    refine geminiLines_join (by simp) ?_
    intro l hl
    simp only [List.mem_cons, List.not_mem_nil, or_false] at hl
    rcases hl with rfl | rfl | rfl | rfl
    · exact ⟨hT1, append_ne_nil_left _ (by decide), not_mem_append_char (by decide) hsnl⟩
    · exact ⟨hT2, append_ne_nil_left _ (by decide), hnl2⟩
    · exact ⟨hT3, append_ne_nil_left _ (by decide), not_mem_append_char (by decide) hqnl⟩
    · exact ⟨hT4, append_ne_nil_left _ (by decide), not_mem_append_char (by decide) hanl⟩
  have hu1 : upperStr (str "SHOW: " ++ s) = str "SHOW: " ++ upperStr s := by
    rw [upperStr_append, show upperStr (str "SHOW: ") = str "SHOW: " from by decide]
  have hu2 : upperStr (str "LONGEST_BREAK_MS: "
      ++ (d1 ++ (str "-" ++ (d2 ++ (str " (" ++ (d3 ++ str ")"))))))
      = str "LONGEST_BREAK_MS: "
        ++ upperStr (d1 ++ (str "-" ++ (d2 ++ (str " (" ++ (d3 ++ str ")"))))) := by
    rw [upperStr_append,
      show upperStr (str "LONGEST_BREAK_MS: ") = str "LONGEST_BREAK_MS: " from by decide]
  have hu3 : upperStr (str "CLIP_1_QUESTION: " ++ q)
      = str "CLIP_1_QUESTION: " ++ upperStr q := by
    rw [upperStr_append,
      show upperStr (str "CLIP_1_QUESTION: ") = str "CLIP_1_QUESTION: " from by decide]
  have hu4 : upperStr (str "CLIP_2_ANSWER: " ++ a)
      = str "CLIP_2_ANSWER: " ++ upperStr a := by
    rw [upperStr_append,
      show upperStr (str "CLIP_2_ANSWER: ") = str "CLIP_2_ANSWER: " from by decide]
  have hPS : strStarts (str "SHOW:") (upperStr (str "SHOW: " ++ s)) = true := by
    rw [hu1]
    exact strStarts_append_of _ (by decide)
  have hPB : strStarts (str "LONGEST_BREAK_MS:") (upperStr (str "LONGEST_BREAK_MS: "
      ++ (d1 ++ (str "-" ++ (d2 ++ (str " (" ++ (d3 ++ str ")"))))))) = true := by
    rw [hu2]
    exact strStarts_append_of _ (by decide)
  have hPQ : strStarts (str "CLIP_1_QUESTION:")
      (upperStr (str "CLIP_1_QUESTION: " ++ q)) = true := by
    rw [hu3]
    exact strStarts_append_of _ (by decide)
  have hPA : strStarts (str "CLIP_2_ANSWER:")
      (upperStr (str "CLIP_2_ANSWER: " ++ a)) = true := by
    rw [hu4]
    exact strStarts_append_of _ (by decide)
  have hNB1 : strStarts (str "LONGEST_BREAK_MS:") (upperStr (str "SHOW: " ++ s)) = false := by
    rw [hu1]
    exact strStarts_append_false _ (by decide)
  have hNQ1 : strStarts (str "CLIP_1_QUESTION:") (upperStr (str "SHOW: " ++ s)) = false := by
    rw [hu1]
    exact strStarts_append_false _ (by decide)
  have hNQ2 : strStarts (str "CLIP_1_QUESTION:") (upperStr (str "LONGEST_BREAK_MS: "
      ++ (d1 ++ (str "-" ++ (d2 ++ (str " (" ++ (d3 ++ str ")"))))))) = false := by
    rw [hu2]
    exact strStarts_append_false _ (by decide)
  have hNA1 : strStarts (str "CLIP_2_ANSWER:") (upperStr (str "SHOW: " ++ s)) = false := by
    rw [hu1]
    exact strStarts_append_false _ (by decide)
  have hNA2 : strStarts (str "CLIP_2_ANSWER:") (upperStr (str "LONGEST_BREAK_MS: "
      ++ (d1 ++ (str "-" ++ (d2 ++ (str " (" ++ (d3 ++ str ")"))))))) = false := by
    rw [hu2]
    exact strStarts_append_false _ (by decide)
  have hNA3 : strStarts (str "CLIP_2_ANSWER:")
      (upperStr (str "CLIP_1_QUESTION: " ++ q)) = false := by
    rw [hu3]
    exact strStarts_append_false _ (by decide)
  have hfS : findLabel (str "SHOW:")
      [str "SHOW: " ++ s,
       str "LONGEST_BREAK_MS: " ++ (d1 ++ (str "-" ++ (d2 ++ (str " (" ++ (d3 ++ str ")"))))),
       str "CLIP_1_QUESTION: " ++ q,
       str "CLIP_2_ANSWER: " ++ a] = str "SHOW: " ++ s := by
    unfold findLabel
    simp only [List.find?_cons, hPS]
    rfl
  have hfB : findLabel (str "LONGEST_BREAK_MS:")
      [str "SHOW: " ++ s,
       str "LONGEST_BREAK_MS: " ++ (d1 ++ (str "-" ++ (d2 ++ (str " (" ++ (d3 ++ str ")"))))),
       str "CLIP_1_QUESTION: " ++ q,
       str "CLIP_2_ANSWER: " ++ a]
      = str "LONGEST_BREAK_MS: " ++ (d1 ++ (str "-" ++ (d2 ++ (str " (" ++ (d3 ++ str ")"))))) := by
    unfold findLabel
    simp only [List.find?_cons, hNB1, hPB]
    rfl
  have hfQ : findLabel (str "CLIP_1_QUESTION:")
      [str "SHOW: " ++ s,
       str "LONGEST_BREAK_MS: " ++ (d1 ++ (str "-" ++ (d2 ++ (str " (" ++ (d3 ++ str ")"))))),
       str "CLIP_1_QUESTION: " ++ q,
       str "CLIP_2_ANSWER: " ++ a] = str "CLIP_1_QUESTION: " ++ q := by
    unfold findLabel
    simp only [List.find?_cons, hNQ1, hNQ2, hPQ]
    rfl
  have hfA : findLabel (str "CLIP_2_ANSWER:")
      [str "SHOW: " ++ s,
       str "LONGEST_BREAK_MS: " ++ (d1 ++ (str "-" ++ (d2 ++ (str " (" ++ (d3 ++ str ")"))))),
       str "CLIP_1_QUESTION: " ++ q,
       str "CLIP_2_ANSWER: " ++ a] = str "CLIP_2_ANSWER: " ++ a := by
    unfold findLabel
    simp only [List.find?_cons, hNA1, hNA2, hNA3, hPA]
    rfl
  simp only [parseGeminiFourLines, hj, hfS, hfB, hfQ, hfA]
  rw [stripLabelCI_space (str "SHOW:") s (str "SHOW: " ++ s) rfl hPS hst hsn]
  rw [stripLabelCI_space (str "CLIP_1_QUESTION:") q (str "CLIP_1_QUESTION: " ++ q) rfl
    hPQ hqt hqn]
  rw [stripLabelCI_space (str "CLIP_2_ANSWER:") a (str "CLIP_2_ANSWER: " ++ a) rfl
    hPA hat han]
  rw [jsTrim_eq_self hst, jsTrim_eq_self hqt, jsTrim_eq_self hat]
  rw [if_neg hsn]
  rw [matchBreak_render h1n h1 h2n h2 h3n h3]

/-- A response missing the `LONGEST_BREAK_MS:` line parses with all three
break fields null while the other three fields still parse. -/
theorem parseGemini_threeLines_noBreak {s q a : Str}
    (hst : Trimmed s = true) (hsn : s ≠ []) (hsnl : '\n' ∉ s)
    (hqt : Trimmed q = true) (hqn : q ≠ []) (hqnl : '\n' ∉ q)
    (hat : Trimmed a = true) (han : a ≠ []) (hanl : '\n' ∉ a) :
    parseGeminiFourLines (joinStr ['\n']
        [str "SHOW: " ++ s, str "CLIP_1_QUESTION: " ++ q, str "CLIP_2_ANSWER: " ++ a])
      = ⟨s, none, none, none, q, a⟩ := by
  have hT1 : Trimmed (str "SHOW: " ++ s) = true :=
    trimmed_append (by decide) (by decide) hsn (trimmed_last hst hsn)
  have hT3 : Trimmed (str "CLIP_1_QUESTION: " ++ q) = true :=
    trimmed_append (by decide) (by decide) hqn (trimmed_last hqt hqn)
  have hT4 : Trimmed (str "CLIP_2_ANSWER: " ++ a) = true :=
    trimmed_append (by decide) (by decide) han (trimmed_last hat han)
  have hj : geminiLines (joinStr ['\n']
      [str "SHOW: " ++ s, str "CLIP_1_QUESTION: " ++ q, str "CLIP_2_ANSWER: " ++ a])
      = [str "SHOW: " ++ s, str "CLIP_1_QUESTION: " ++ q, str "CLIP_2_ANSWER: " ++ a] := by
    refine geminiLines_join (by simp) ?_
    intro l hl
    simp only [List.mem_cons, List.not_mem_nil, or_false] at hl
    rcases hl with rfl | rfl | rfl
    · exact ⟨hT1, append_ne_nil_left _ (by decide), not_mem_append_char (by decide) hsnl⟩
    · exact ⟨hT3, append_ne_nil_left _ (by decide), not_mem_append_char (by decide) hqnl⟩
    · exact ⟨hT4, append_ne_nil_left _ (by decide), not_mem_append_char (by decide) hanl⟩
  have hu1 : upperStr (str "SHOW: " ++ s) = str "SHOW: " ++ upperStr s := by
    rw [upperStr_append, show upperStr (str "SHOW: ") = str "SHOW: " from by decide]
  have hu3 : upperStr (str "CLIP_1_QUESTION: " ++ q)
      = str "CLIP_1_QUESTION: " ++ upperStr q := by
    rw [upperStr_append,
      show upperStr (str "CLIP_1_QUESTION: ") = str "CLIP_1_QUESTION: " from by decide]
  have hu4 : upperStr (str "CLIP_2_ANSWER: " ++ a)
      = str "CLIP_2_ANSWER: " ++ upperStr a := by
    rw [upperStr_append,
      show upperStr (str "CLIP_2_ANSWER: ") = str "CLIP_2_ANSWER: " from by decide]
  have hPS : strStarts (str "SHOW:") (upperStr (str "SHOW: " ++ s)) = true := by
    rw [hu1]
    exact strStarts_append_of _ (by decide)
  have hPQ : strStarts (str "CLIP_1_QUESTION:")
      (upperStr (str "CLIP_1_QUESTION: " ++ q)) = true := by
    rw [hu3]
    exact strStarts_append_of _ (by decide)
  have hPA : strStarts (str "CLIP_2_ANSWER:")
      (upperStr (str "CLIP_2_ANSWER: " ++ a)) = true := by
    rw [hu4]
    exact strStarts_append_of _ (by decide)
  have hNB1 : strStarts (str "LONGEST_BREAK_MS:") (upperStr (str "SHOW: " ++ s)) = false := by
    rw [hu1]
    exact strStarts_append_false _ (by decide)
  have hNB3 : strStarts (str "LONGEST_BREAK_MS:")
      (upperStr (str "CLIP_1_QUESTION: " ++ q)) = false := by
    rw [hu3]
    exact strStarts_append_false _ (by decide)
  have hNB4 : strStarts (str "LONGEST_BREAK_MS:")
      (upperStr (str "CLIP_2_ANSWER: " ++ a)) = false := by
    rw [hu4]
    exact strStarts_append_false _ (by decide)
  have hNQ1 : strStarts (str "CLIP_1_QUESTION:") (upperStr (str "SHOW: " ++ s)) = false := by
    rw [hu1]
    exact strStarts_append_false _ (by decide)
  have hNA1 : strStarts (str "CLIP_2_ANSWER:") (upperStr (str "SHOW: " ++ s)) = false := by
    rw [hu1]
    exact strStarts_append_false _ (by decide)
  have hNA3 : strStarts (str "CLIP_2_ANSWER:")
      (upperStr (str "CLIP_1_QUESTION: " ++ q)) = false := by
    rw [hu3]
    exact strStarts_append_false _ (by decide)
  have hfS : findLabel (str "SHOW:")
      [str "SHOW: " ++ s, str "CLIP_1_QUESTION: " ++ q, str "CLIP_2_ANSWER: " ++ a]
      = str "SHOW: " ++ s := by
    unfold findLabel
    simp only [List.find?_cons, hPS]
    rfl
  have hfB : findLabel (str "LONGEST_BREAK_MS:")
      [str "SHOW: " ++ s, str "CLIP_1_QUESTION: " ++ q, str "CLIP_2_ANSWER: " ++ a] = [] := by
    unfold findLabel
    simp only [List.find?_cons, hNB1, hNB3, hNB4, List.find?_nil]
    rfl
  have hfQ : findLabel (str "CLIP_1_QUESTION:")
      [str "SHOW: " ++ s, str "CLIP_1_QUESTION: " ++ q, str "CLIP_2_ANSWER: " ++ a]
      = str "CLIP_1_QUESTION: " ++ q := by
    unfold findLabel
    simp only [List.find?_cons, hNQ1, hPQ]
    rfl
  have hfA : findLabel (str "CLIP_2_ANSWER:")
      [str "SHOW: " ++ s, str "CLIP_1_QUESTION: " ++ q, str "CLIP_2_ANSWER: " ++ a]
      = str "CLIP_2_ANSWER: " ++ a := by
    unfold findLabel
    simp only [List.find?_cons, hNA1, hNA3, hPA]
    rfl
  simp only [parseGeminiFourLines, hj, hfS, hfB, hfQ, hfA]
  rw [stripLabelCI_space (str "SHOW:") s (str "SHOW: " ++ s) rfl hPS hst hsn]
  rw [stripLabelCI_space (str "CLIP_1_QUESTION:") q (str "CLIP_1_QUESTION: " ++ q) rfl
    hPQ hqt hqn]
  rw [stripLabelCI_space (str "CLIP_2_ANSWER:") a (str "CLIP_2_ANSWER: " ++ a) rfl
    hPA hat han]
  rw [jsTrim_eq_self hst, jsTrim_eq_self hqt, jsTrim_eq_self hat]
  rw [if_neg hsn]
  rfl

/-- Any input degrades gracefully: a missing labelled line leaves its
field at its default (`"Unknown"`, `null`s, or the empty string). -/
theorem parseGemini_defaults (raw : Str) :
    ((geminiLines raw).find? (fun l => strStarts (str "SHOW:") (upperStr l)) = none →
      (parseGeminiFourLines raw).showName = str "Unknown")
    ∧ ((geminiLines raw).find?
          (fun l => strStarts (str "LONGEST_BREAK_MS:") (upperStr l)) = none →
        (parseGeminiFourLines raw).breakStartMs = none
        ∧ (parseGeminiFourLines raw).breakEndMs = none
        ∧ (parseGeminiFourLines raw).breakDurationMs = none)
    ∧ ((geminiLines raw).find? (fun l => strStarts (str "CLIP_1_QUESTION:") (upperStr l))
          = none →
        (parseGeminiFourLines raw).clip1Question = [])
    ∧ ((geminiLines raw).find? (fun l => strStarts (str "CLIP_2_ANSWER:") (upperStr l))
          = none →
        (parseGeminiFourLines raw).clip2Answer = []) := by
  refine ⟨?_, ?_, ?_, ?_⟩
  · intro h
    simp only [parseGeminiFourLines, findLabel, h, Option.getD_none]
    rfl
  · intro h
    simp only [parseGeminiFourLines, findLabel, h, Option.getD_none]
    exact ⟨rfl, rfl, rfl⟩
  · intro h
    simp only [parseGeminiFourLines, findLabel, h, Option.getD_none]
    rfl
  · intro h
    simp only [parseGeminiFourLines, findLabel, h, Option.getD_none]
    rfl

/-! ## Lemmas about the submission store -/

theorem getD_of_getElem? {α} [Inhabited α] {l : List α} {i : Nat} {x : α}
    (h : l[i]? = some x) : l.getD i default = x := by
  rw [List.getD_eq_getElem?_getD, h]
  rfl

theorem findIdx?_bound {α} {l : List α} {p : α → Bool} {i : Nat}
    (h : l.findIdx? p = some i) : i < l.length :=
  (List.findIdx?_eq_some_iff_getElem.mp h).1

theorem findIdx?_pred {α} {l : List α} {p : α → Bool} {i : Nat} {x : α}
    (h : l.findIdx? p = some i) (hx : l[i]? = some x) : p x = true := by
  obtain ⟨hlen, hp, -⟩ := List.findIdx?_eq_some_iff_getElem.mp h
  have : l[i]? = some l[i] := List.getElem?_eq_getElem hlen
  rw [this] at hx
  cases hx
  exact hp

theorem findIdx?_set_self {α} {l : List α} {p : α → Bool} {i : Nat} {x : α}
    (h : l.findIdx? p = some i) (hx : p x = true) : (l.set i x).findIdx? p = some i := by
  obtain ⟨hlen, hp, hmin⟩ := List.findIdx?_eq_some_iff_getElem.mp h
  rw [List.findIdx?_eq_some_iff_getElem]
  refine ⟨by rw [List.length_set]; exact hlen, ?_, ?_⟩
  · rw [List.getElem_set]
    rw [if_pos rfl]
    exact hx
  · intro j hji
    rw [List.getElem_set]
    rw [if_neg (by omega)]
    exact hmin j hji

/-! ## Sample records for concrete witnesses -/

/-- Sample stored-file metadata. -/
def sampleFile : FileMeta := ⟨str "v.mp4", str "s.mp4", str "p", 5, str "video/mp4"⟩

/-- A submission holding a non-empty cached transcript. -/
def subCachedA : Submission :=
  ⟨str "a", str "t0", str "goal",
    some ⟨str "whisper.cpp", str "hi", [], str "t1"⟩, none, none, sampleFile⟩

/-- A submission with no transcript yet. -/
def subFreshB : Submission := ⟨str "b", str "t0", str "goal", none, none, none, sampleFile⟩

/-- Another submission with no transcript yet. -/
def subFreshC : Submission := ⟨str "c", str "t0", str "goal", none, none, none, sampleFile⟩

/-! ## Claim theorems -/

/-- C1: Subtitle parsing round-trip.  The block `1 / 00:00:01,000 -->
00:00:03,500 / hello world` parses to exactly one segment
`{startMs := 1000, endMs := 3500, text := "hello world"}`; in general,
`toMs` converts an `HH:MM:SS[.,]mmm` timestamp (either separator) to its
integer millisecond value, and a well-formed block with any non-empty list
of text lines parses to one segment whose text joins those lines with
single spaces. -/
theorem c1_subtitle_parsing :
    parseSrt (str "1\n00:00:01,000 --> 00:00:03,500\nhello world\n")
        = [⟨1000, 3500, str "hello world"⟩]
    ∧ (∀ a b c d e f g h i sep : Char,
        a.isDigit = true → b.isDigit = true → c.isDigit = true → d.isDigit = true →
        e.isDigit = true → f.isDigit = true → (sep = '.' ∨ sep = ',') →
        g.isDigit = true → h.isDigit = true → i.isDigit = true →
        toMs [a, b, ':', c, d, ':', e, f, sep, g, h, i] =
          (10 * digitVal a + digitVal b) * 3600000 + (10 * digitVal c + digitVal d) * 60000 +
          (10 * digitVal e + digitVal f) * 1000 +
          (100 * digitVal g + 10 * digitVal h + digitVal i))
    ∧ (∀ (l0 t1 t2 : Str) (textLines : List Str),
        tsShape t1 = true → tsShape t2 = true →
        Trimmed l0 = true → l0 ≠ [] → '\n' ∉ l0 →
        textLines ≠ [] → (∀ l ∈ textLines, Trimmed l = true ∧ l ≠ [] ∧ '\n' ∉ l) →
        parseBlockLines (blockLines
            (l0 ++ '\n' :: ((t1 ++ (str " --> " ++ t2)) ++ '\n' :: joinStr ['\n'] textLines)))
          = some ⟨toMs t1, toMs t2, joinStr (str " ") textLines⟩) := by
  refine ⟨by decide, ?_, ?_⟩
  · intro a b c d e f g h i sep ha hb hc hd he hf hsep hg hh hi
    exact toMs_shape ha hb hc hd he hf hsep hg hh hi
  · intro l0 t1 t2 textLines h1 h2 h0 h0n h0nl htl hT
    have hbne : (str " --> " ++ t2) ≠ [] := by
      intro e
      exact absurd (List.append_eq_nil.mp e).1 (by decide)
    have htsline_trim : Trimmed (t1 ++ (str " --> " ++ t2)) = true := by
      refine trimmed_append (tsShape_ne_nil h1) (tsShape_head_not_ws h1) hbne ?_
      rw [getLastD_append_of_ne_nil (tsShape_ne_nil h2)]
      exact tsShape_last_not_ws h2
    have htsn : (t1 ++ (str " --> " ++ t2)) ≠ [] := by
      intro e
      exact tsShape_ne_nil h1 (List.append_eq_nil.mp e).1
    have htsnl : '\n' ∉ (t1 ++ (str " --> " ++ t2)) := by
      intro hm
      rcases List.mem_append.mp hm with hma | hmb
      · exact tsShape_no_nl h1 hma
      · rcases List.mem_append.mp hmb with hmc | hmd
        · exact (by decide : '\n' ∉ str " --> ") hmc
        · exact tsShape_no_nl h2 hmd
    rw [blockLines_render h0 h0n h0nl htsline_trim htsn htsnl htl hT]
    exact parseBlockLines_render htl (matchTime_render h1 h2)

/-- Witness for C1 at concrete inputs: the timestamp `00:00:01.000` with a
`.` separator and a two-text-line block. -/
theorem c1_subtitle_parsing_witness :
    (toMs ['0', '0', ':', '0', '0', ':', '0', '1', '.', '0', '0', '0'] =
      (10 * digitVal '0' + digitVal '0') * 3600000 + (10 * digitVal '0' + digitVal '0') * 60000 +
      (10 * digitVal '0' + digitVal '1') * 1000 +
      (100 * digitVal '0' + 10 * digitVal '0' + digitVal '0'))
    ∧ parseBlockLines (blockLines
        (str "7" ++ '\n' ::
          ((['0', '0', ':', '0', '0', ':', '0', '1', '.', '0', '0', '0'] ++
            (str " --> " ++ ['0', '0', ':', '0', '0', ':', '0', '3', ',', '5', '0', '0'])) ++
            '\n' :: joinStr ['\n'] [str "line one", str "line two"])))
      = some ⟨toMs ['0', '0', ':', '0', '0', ':', '0', '1', '.', '0', '0', '0'],
          toMs ['0', '0', ':', '0', '0', ':', '0', '3', ',', '5', '0', '0'],
          joinStr (str " ") [str "line one", str "line two"]⟩ := by
  constructor
  · exact c1_subtitle_parsing.2.1 '0' '0' '0' '0' '0' '1' '0' '0' '0' '.'
      (by decide) (by decide) (by decide) (by decide) (by decide) (by decide)
      (Or.inl rfl) (by decide) (by decide) (by decide)
  · exact c1_subtitle_parsing.2.2 (str "7")
      ['0', '0', ':', '0', '0', ':', '0', '1', '.', '0', '0', '0']
      ['0', '0', ':', '0', '0', ':', '0', '3', ',', '5', '0', '0']
      [str "line one", str "line two"]
      (by decide) (by decide) (by decide) (by decide) (by decide) (by decide) (by decide)

/-- C8: the model prompt embeds at most the first 220 segments (compacted
to start/end/text) and at most the first 4000 characters of the full
transcript, alongside the user's goal: the prompt built from the full
inputs is identical to the prompt built from the truncated inputs, so
later segments and characters never appear in it. -/
theorem c8_prompt_truncation (userGoal fullTranscript : Str) (segments : List SrtSegment) :
    buildGeminiPrompt userGoal segments fullTranscript
      = buildGeminiPrompt userGoal (segments.take 220) (fullTranscript.take 4000) := by
  unfold buildGeminiPrompt
  simp [List.take_take]

/-- C9: the splice route's timestamp validation truncates rather than
rejects: any string whose leading characters (after the sign position)
form a digit run parses via `Number.parseInt` truncation and is accepted
with that integer value when non-negative; in particular `"12.5"` is
accepted as 12 and `"90abc"` as 90; the only 400 rejections of a
non-empty timestamp are a failed parse (`NaN`) or a negative value. -/
theorem c9_splice_timestamp_truncation :
    (∀ s : Str, ∀ n : Int, s ≠ [] → parseIntJs s = some n → 0 ≤ n →
        spliceTimestampCheck (some s) = .ok n)
    ∧ (∀ ds rest : Str, ds ≠ [] → (∀ x ∈ ds, x.isDigit = true) →
        (rest = [] ∨ (rest.headD ' ').isDigit = false) →
        spliceTimestampCheck (some (ds ++ rest)) = .ok ((digitsToNat ds : Int)))
    ∧ spliceTimestampCheck (some (str "12.5")) = .ok 12
    ∧ spliceTimestampCheck (some (str "90abc")) = .ok 90
    ∧ (∀ s : Str, s ≠ [] → parseIntJs s = none →
        spliceTimestampCheck (some s)
          = .error (400, str "timestamp must be a non-negative integer (ms)."))
    ∧ (∀ s : Str, ∀ n : Int, parseIntJs s = some n → n < 0 →
        spliceTimestampCheck (some s)
          = .error (400, str "timestamp must be a non-negative integer (ms).")) := by
  have haccept : ∀ s : Str, ∀ n : Int, s ≠ [] → parseIntJs s = some n → 0 ≤ n →
      spliceTimestampCheck (some s) = .ok n := by
    intro s n hs hp h0
    simp only [spliceTimestampCheck, Option.getD_some]
    rw [if_neg hs, hp]
    simp only
    rw [if_neg (by omega)]
  refine ⟨haccept, ?_, by rfl, by rfl, ?_, ?_⟩
  · intro ds rest hds hdig hrest
    obtain ⟨d0, ds2, rfl⟩ : ∃ d0 ds2, ds = d0 :: ds2 := by
      cases ds with
      | nil => exact absurd rfl hds
      | cons d0 ds2 => exact ⟨d0, ds2, rfl⟩
    have hd0 : d0.isDigit = true := hdig d0 (List.mem_cons_self _ _)
    have hnm : d0 ≠ '-' := ne_of_isDigit hd0 (by decide)
    have hnp : d0 ≠ '+' := ne_of_isDigit hd0 (by decide)
    have hdrop : List.dropWhile jsWs (d0 :: (ds2 ++ rest)) = d0 :: (ds2 ++ rest) := by
      rw [List.dropWhile_cons, if_neg (by simp [jsWs_of_isDigit hd0])]
    have htake : List.takeWhile Char.isDigit (d0 :: (ds2 ++ rest)) = d0 :: ds2 := by
      have := takeWhile_append_all (p := Char.isDigit) rest hdig
      rw [List.cons_append] at this
      rw [this]
      rcases hrest with rfl | hh
      · simp
      · cases rest with
        | nil => simp
        | cons r0 rest2 =>
          simp only [List.headD_cons] at hh
          rw [List.takeWhile_cons, if_neg (by simp [hh]), List.append_nil]
    have hparse : parseIntJs ((d0 :: ds2) ++ rest) = some ((digitsToNat (d0 :: ds2) : Int)) := by
      simp only [parseIntJs, List.cons_append, hdrop, List.headD_cons]
      simp [hnm, hnp, htake]
    exact haccept ((d0 :: ds2) ++ rest) (digitsToNat (d0 :: ds2)) (by simp) hparse (by omega)
  · intro s hs hp
    simp only [spliceTimestampCheck, Option.getD_some]
    rw [if_neg hs, hp]
  · intro s n hp hneg
    have hs : s ≠ [] := by
      intro e
      rw [e] at hp
      cases hp
    simp only [spliceTimestampCheck, Option.getD_some]
    rw [if_neg hs, hp]
    simp only
    rw [if_pos hneg]

/-- Witness for C9: the truncating acceptance applied to `"90abc"` through
the general leading-digits clause, and the negative rejection at `"-3"`. -/
theorem c9_splice_timestamp_truncation_witness :
    spliceTimestampCheck (some (str "90" ++ str "abc")) = .ok (digitsToNat (str "90"))
    ∧ spliceTimestampCheck (some (str "-3"))
        = .error (400, str "timestamp must be a non-negative integer (ms).") := by
  constructor
  · exact c9_splice_timestamp_truncation.2.1 (str "90") (str "abc")
      (by decide) (by decide) (by decide)
  · exact c9_splice_timestamp_truncation.2.2.2.2.2 (str "-3") (-3) (by decide) (by decide)

/-- C6: the frame-rate fraction logic of `probeVideoProps`: the parsed
quotient `a / b` is used as fps exactly when both parts parse as finite
numbers, `b` is nonzero and the quotient is strictly between 0 and 240;
in every other case (absent field, no `/`, unparsable part, zero
denominator, out-of-range quotient) the fps is exactly 30. -/
theorem c6_fps_guard :
    (fpsOfRFrameRate none = 30)
    ∧ (∀ s : Str, containsChar '/' s = false → fpsOfRFrameRate (some s) = 30)
    ∧ (∀ (s p0 p1 : Str) (ps : List Str) (a b : ℚ),
        containsChar '/' s = true → splitChar '/' s = p0 :: p1 :: ps →
        jsNumber p0 = some a → jsNumber p1 = some b → b ≠ 0 →
        0 < a / b → a / b < 240 → fpsOfRFrameRate (some s) = a / b)
    ∧ (∀ (s p0 p1 : Str) (ps : List Str) (a b : ℚ),
        containsChar '/' s = true → splitChar '/' s = p0 :: p1 :: ps →
        jsNumber p0 = some a → jsNumber p1 = some b →
        (b = 0 ∨ ¬(0 < a / b ∧ a / b < 240)) → fpsOfRFrameRate (some s) = 30)
    ∧ (∀ (s p0 p1 : Str) (ps : List Str),
        containsChar '/' s = true → splitChar '/' s = p0 :: p1 :: ps →
        (jsNumber p0 = none ∨ jsNumber p1 = none) → fpsOfRFrameRate (some s) = 30) := by
  refine ⟨rfl, ?_, ?_, ?_, ?_⟩
  · intro s hc
    simp [fpsOfRFrameRate, hc]
  · intro s p0 p1 ps a b hc hsplit ha hb hbne h0 h240
    simp only [fpsOfRFrameRate]
    rw [if_pos hc, hsplit]
    simp only [ha, hb]
    rw [if_pos hbne, if_pos ⟨h0, h240⟩]
  · intro s p0 p1 ps a b hc hsplit ha hb hbad
    simp only [fpsOfRFrameRate]
    rw [if_pos hc, hsplit]
    simp only [ha, hb]
    rcases hbad with rfl | hrange
    · rw [if_neg (by simp)]
    · by_cases hbz : b = 0
      · rw [if_neg (by simp [hbz])]
      · rw [if_pos hbz, if_neg hrange]
  · intro s p0 p1 ps hc hsplit hnone
    simp only [fpsOfRFrameRate]
    rw [if_pos hc, hsplit]
    rcases hnone with h | h
    · simp only [h]
    · cases hp0 : jsNumber p0 <;> simp [h, hp0]

/-- Witness for C6: the NTSC fraction `"30000/1001"` is accepted as
`30000 / 1001`, and `"0/0"` falls back to 30. -/
theorem c6_fps_guard_witness :
    fpsOfRFrameRate (some (str "30000/1001")) = 30000 / 1001
    ∧ fpsOfRFrameRate (some (str "0/0")) = 30 := by
  constructor
  · exact c6_fps_guard.2.2.1 (str "30000/1001") (str "30000") (str "1001") [] 30000 1001
      (by decide) (by decide) (by decide) (by decide) (by norm_num) (by norm_num) (by norm_num)
  · exact c6_fps_guard.2.2.2.1 (str "0/0") (str "0") (str "0") [] 0 0
      (by decide) (by decide) (by decide) (by decide) (Or.inl rfl)

/-- C3: transcription is idempotent once a non-empty transcript exists:
if the found submission stores a transcript whose trimmed text is
non-empty, the endpoint returns it unchanged with `cached = true` and an
untouched store, for every transcriber oracle (so no re-transcription can
influence the result); without such a transcript, a successful run stores
the new transcript in place and reports `cached = false`. -/
theorem c3_transcription_idempotent :
    (∀ (store : List Submission) (id now : Str) (i : Nat) (sub : Submission)
        (t : TranscriptRec) (w : Except Str (Str × List SrtSegment)),
        store.findIdx? (fun s => s.id = id) = some i → store[i]? = some sub →
        sub.transcript = some t → jsTrim t.text ≠ [] →
        transcribeEndpoint store id now w = ⟨200, true, some t, some true, none, store⟩)
    ∧ (∀ (store : List Submission) (id now : Str) (i : Nat) (sub : Submission)
        (text : Str) (segments : List SrtSegment),
        store.findIdx? (fun s => s.id = id) = some i → store[i]? = some sub →
        cacheHit sub = false →
        transcribeEndpoint store id now (.ok (text, segments))
          = ⟨200, true, some ⟨str "whisper.cpp", text, segments, now⟩, some false, none,
              store.set i
                { sub with transcript := some ⟨str "whisper.cpp", text, segments, now⟩ }⟩) := by
  constructor
  · intro store id now i sub t w hfind hget htr htrim
    have htne : t.text ≠ [] := fun e => htrim (by rw [e]; rfl)
    have hch : cacheHit sub = true := by
      simp [cacheHit, htr, htne, htrim]
    simp only [transcribeEndpoint, hfind]
    rw [getD_of_getElem? hget]
    rw [if_pos hch, htr]
  · intro store id now i sub text segments hfind hget hch
    simp only [transcribeEndpoint, hfind]
    rw [getD_of_getElem? hget]
    rw [if_neg (by simp [hch])]

/-- Witness for C3: the cached clause at a submission with a stored
transcript, the fresh clause at one without. -/
theorem c3_transcription_idempotent_witness :
    (transcribeEndpoint [subCachedA] (str "a") (str "t2") (.error (str "boom"))
      = ⟨200, true, some ⟨str "whisper.cpp", str "hi", [], str "t1"⟩, some true, none,
          [subCachedA]⟩)
    ∧ (transcribeEndpoint [subFreshB] (str "b") (str "t2") (.ok (str "new", []))
      = ⟨200, true, some ⟨str "whisper.cpp", str "new", [], str "t2"⟩, some false, none,
          [subFreshB].set 0
            { subFreshB with
              transcript := some ⟨str "whisper.cpp", str "new", [], str "t2"⟩ }⟩) := by
  constructor
  · exact c3_transcription_idempotent.1 [subCachedA] (str "a") (str "t2") 0 subCachedA
      ⟨str "whisper.cpp", str "hi", [], str "t1"⟩ (.error (str "boom"))
      (by decide) (by decide) rfl (by decide)
  · exact c3_transcription_idempotent.2 [subFreshB] (str "b") (str "t2") 0 subFreshB
      (str "new") [] (by decide) (by decide) (by decide)

/-- C4: the analysis endpoint on a submission without timestamped
segments (missing transcript or empty segment list) answers 400 with the
"run transcription first" error and leaves the store (hence the
submission's analysis field) untouched, for every model oracle — the
model is never consulted. -/
theorem c4_analyze_requires_segments :
    ∀ (store : List Submission) (id k modelName now : Str)
      (g : Str → Except Str Str) (i : Nat) (sub : Submission),
      store.findIdx? (fun s => s.id = id) = some i → store[i]? = some sub →
      (match sub.transcript with
        | some t => t.segments
        | none => []) = [] →
      analyzeEndpoint store id (some k) modelName now g
        = ⟨400, false, none,
            some (str "No timestamped transcript found. Run Transcribe first."), store⟩ := by
  intro store id k modelName now g i sub hfind hget hseg
  simp only [analyzeEndpoint, hfind]
  rw [getD_of_getElem? hget]
  rw [hseg]
  rfl

/-- Witness for C4: a submission with a transcript whose segment list is
empty, under an oracle that would answer if it were called. -/
theorem c4_analyze_requires_segments_witness :
    analyzeEndpoint [subCachedA] (str "a") (some (str "key")) (str "gemini-2.5-flash")
        (str "t2") (fun _ => .ok (str "SHOW: X"))
      = ⟨400, false, none,
          some (str "No timestamped transcript found. Run Transcribe first."),
          [subCachedA]⟩ :=
  c4_analyze_requires_segments [subCachedA] (str "a") (str "key") (str "gemini-2.5-flash")
    (str "t2") (fun _ => .ok (str "SHOW: X")) 0 subCachedA (by decide) (by decide) rfl

/-- C10: when the speech-to-text binary exits 0 but neither output file
exists, transcription succeeds with empty text and no segments; the
endpoint persists this empty transcript with `cached = false`; and since
the cache test requires non-empty trimmed text, a subsequent request on
the updated store is never answered from the cache (for any oracle). -/
theorem c10_empty_transcription_not_cached (mp : Str) :
    transcribeWithWhisperCpp (some mp) true (.ok ()) (.ok ()) none none = .ok ([], [])
    ∧ (∀ (sub : Submission) (now : Str),
        cacheHit { sub with transcript := some ⟨str "whisper.cpp", [], [], now⟩ } = false)
    ∧ (∀ (store : List Submission) (id now : Str) (w : Except Str (Str × List SrtSegment))
        (i : Nat) (sub : Submission),
        store.findIdx? (fun s => s.id = id) = some i → store[i]? = some sub →
        cacheHit sub = false →
        (transcribeEndpoint store id now w).cached ≠ some true)
    ∧ (∀ (store : List Submission) (id now now2 : Str)
        (w : Except Str (Str × List SrtSegment)) (i : Nat) (sub : Submission),
        store.findIdx? (fun s => s.id = id) = some i → store[i]? = some sub →
        cacheHit sub = false →
        transcribeEndpoint store id now
            (transcribeWithWhisperCpp (some mp) true (.ok ()) (.ok ()) none none)
          = ⟨200, true, some ⟨str "whisper.cpp", [], [], now⟩, some false, none,
              store.set i { sub with transcript := some ⟨str "whisper.cpp", [], [], now⟩ }⟩
        ∧ (transcribeEndpoint
            (transcribeEndpoint store id now
              (transcribeWithWhisperCpp (some mp) true (.ok ()) (.ok ()) none none)).store
            id now2 w).cached ≠ some true) := by
  have hrun : transcribeWithWhisperCpp (some mp) true (.ok ()) (.ok ()) none none
      = .ok ([], []) := rfl
  have hch2 : ∀ (sub : Submission) (now : Str),
      cacheHit { sub with transcript := some ⟨str "whisper.cpp", [], [], now⟩ } = false := by
    intro sub now
    simp [cacheHit]
  have hnc : ∀ (store : List Submission) (id now : Str)
      (w : Except Str (Str × List SrtSegment)) (i : Nat) (sub : Submission),
      store.findIdx? (fun s => s.id = id) = some i → store[i]? = some sub →
      cacheHit sub = false →
      (transcribeEndpoint store id now w).cached ≠ some true := by
    intro store id now w i sub hfind hget hch
    simp only [transcribeEndpoint, hfind]
    rw [getD_of_getElem? hget]
    rw [if_neg (by simp [hch])]
    cases w with
    | error e => simp
    | ok r =>
      cases r with
      | mk text segments => simp
  refine ⟨hrun, hch2, hnc, ?_⟩
  intro store id now now2 w i sub hfind hget hch
  have hfresh : transcribeEndpoint store id now
      (transcribeWithWhisperCpp (some mp) true (.ok ()) (.ok ()) none none)
      = ⟨200, true, some ⟨str "whisper.cpp", [], [], now⟩, some false, none,
          store.set i { sub with transcript := some ⟨str "whisper.cpp", [], [], now⟩ }⟩ := by
    rw [hrun]
    simp only [transcribeEndpoint, hfind]
    rw [getD_of_getElem? hget]
    rw [if_neg (by simp [hch])]
  refine ⟨hfresh, ?_⟩
  rw [hfresh]
  have hpred := findIdx?_pred hfind hget
  have hfind2 : (store.set i
      { sub with transcript := some ⟨str "whisper.cpp", [], [], now⟩ }).findIdx?
        (fun s => s.id = id) = some i :=
    findIdx?_set_self hfind hpred
  have hget2 : (store.set i
      { sub with transcript := some ⟨str "whisper.cpp", [], [], now⟩ })[i]?
      = some { sub with transcript := some ⟨str "whisper.cpp", [], [], now⟩ } :=
    List.getElem?_set_self (findIdx?_bound hfind)
  exact hnc _ id now2 w i _ hfind2 hget2 (hch2 sub now)

/-- Witness for C10 at a one-element store. -/
theorem c10_empty_transcription_not_cached_witness :
    transcribeWithWhisperCpp (some (str "/m.bin")) true (.ok ()) (.ok ()) none none
      = .ok ([], [])
    ∧ (transcribeEndpoint [subFreshC] (str "c") (str "t1")
          (transcribeWithWhisperCpp (some (str "/m.bin")) true (.ok ()) (.ok ()) none none)
        = ⟨200, true, some ⟨str "whisper.cpp", [], [], str "t1"⟩, some false, none,
            [subFreshC].set 0
              { subFreshC with transcript := some ⟨str "whisper.cpp", [], [], str "t1"⟩ }⟩)
    ∧ (transcribeEndpoint
          (transcribeEndpoint [subFreshC] (str "c") (str "t1")
            (transcribeWithWhisperCpp (some (str "/m.bin")) true (.ok ()) (.ok ()) none none)).store
          (str "c") (str "t2") (.ok (str "again", []))).cached ≠ some true := by
  refine ⟨(c10_empty_transcription_not_cached (str "/m.bin")).1, ?_, ?_⟩
  · exact ((c10_empty_transcription_not_cached (str "/m.bin")).2.2.2 [subFreshC] (str "c")
      (str "t1") (str "t2") (.ok (str "again", [])) 0 subFreshC
      (by decide) (by decide) (by decide)).1
  · exact ((c10_empty_transcription_not_cached (str "/m.bin")).2.2.2 [subFreshC] (str "c")
      (str "t1") (str "t2") (.ok (str "again", [])) 0 subFreshC
      (by decide) (by decide) (by decide)).2

/-- C5: upload validation.  A valid upload (allowed MIME type, size below
the 25 MB limit, non-empty trimmed prompt) stores a submission whose
recorded size equals the input size and is below `MAX_BYTES`, with the
file written to disk; a too-large upload is rejected 413 and a
disallowed MIME type 400, in both cases with no file persisted; a missing
prompt is rejected 400 with the already-written file deleted again. -/
theorem c5_upload_validation :
    (∀ (f : FileIn) (p storedName freshPath newId now : Str)
        (store : List Submission) (disk : List Str),
        fileFilter f.mimetype = true → f.size < MAX_BYTES → jsTrim p ≠ [] →
        uploadRoute ⟨some f, some p⟩ storedName freshPath newId now store disk
            = ⟨200, true,
                some ⟨newId, now, jsTrim p, none, none, none,
                  ⟨f.originalname, storedName, freshPath, f.size, f.mimetype⟩⟩,
                none,
                (⟨newId, now, jsTrim p, none, none, none,
                  ⟨f.originalname, storedName, freshPath, f.size, f.mimetype⟩⟩ : Submission)
                  :: store,
                disk ++ [freshPath]⟩
          ∧ f.size < MAX_BYTES)
    ∧ (∀ (f : FileIn) (p? : Option Str) (storedName freshPath newId now : Str)
        (store : List Submission) (disk : List Str),
        fileFilter f.mimetype = true → f.size ≥ MAX_BYTES →
        uploadRoute ⟨some f, p?⟩ storedName freshPath newId now store disk
          = ⟨413, false, none, some (str "File must be under 25 MB."), store, disk⟩)
    ∧ (∀ (f : FileIn) (p? : Option Str) (storedName freshPath newId now : Str)
        (store : List Submission) (disk : List Str),
        fileFilter f.mimetype = false →
        uploadRoute ⟨some f, p?⟩ storedName freshPath newId now store disk
          = ⟨400, false, none, some (str "Only mp4, webm, or mov videos are allowed."),
              store, disk⟩)
    ∧ (∀ (f : FileIn) (p? : Option Str) (storedName freshPath newId now : Str)
        (store : List Submission) (disk : List Str),
        fileFilter f.mimetype = true → f.size < MAX_BYTES →
        jsTrim (p?.getD []) = [] → freshPath ∉ disk →
        multerPhase ⟨some f, p?⟩ storedName freshPath disk
            = .ok (some ⟨f.originalname, storedName, freshPath, f.size, f.mimetype⟩,
                disk ++ [freshPath])
          ∧ uploadRoute ⟨some f, p?⟩ storedName freshPath newId now store disk
            = ⟨400, false, none, some (str "Prompt is required."), store, disk⟩) := by
  refine ⟨?_, ?_, ?_, ?_⟩
  · intro f p storedName freshPath newId now store disk hff hsize hp
    refine ⟨?_, hsize⟩
    unfold uploadRoute multerPhase
    simp only [hff]
    rw [if_neg (by simp), if_neg (by omega)]
    unfold uploadHandler
    simp only [Option.getD_some]
    rw [if_neg hp]
  · intro f p? storedName freshPath newId now store disk hff hsize
    unfold uploadRoute multerPhase
    simp only [hff]
    rw [if_neg (by simp), if_pos hsize]
  · intro f p? storedName freshPath newId now store disk hff
    unfold uploadRoute multerPhase
    simp only [hff]
    rw [if_pos (by simp [hff])]
  · intro f p? storedName freshPath newId now store disk hff hsize hp hfresh
    have hmp : multerPhase ⟨some f, p?⟩ storedName freshPath disk
        = .ok (some ⟨f.originalname, storedName, freshPath, f.size, f.mimetype⟩,
            disk ++ [freshPath]) := by
      unfold multerPhase
      simp only [hff]
      rw [if_neg (by simp), if_neg (by omega)]
    refine ⟨hmp, ?_⟩
    unfold uploadRoute uploadHandler
    rw [hmp]
    simp [hp, List.erase_append_right _ hfresh]

/-- Witness for C5: a 5-byte mp4 upload accepted; a 25 MB webm rejected
413; a gif rejected 400; a whitespace prompt rejected 400 with the file
unlinked. -/
theorem c5_upload_validation_witness :
    (uploadRoute ⟨some ⟨str "v.mp4", str "video/mp4", 5⟩, some (str " goal ")⟩
        (str "s.mp4") (str "/u/s.mp4") (str "id1") (str "t0") [] []
      = ⟨200, true,
          some ⟨str "id1", str "t0", jsTrim (str " goal "), none, none, none,
            ⟨str "v.mp4", str "s.mp4", str "/u/s.mp4", 5, str "video/mp4"⟩⟩,
          none,
          [⟨str "id1", str "t0", jsTrim (str " goal "), none, none, none,
            ⟨str "v.mp4", str "s.mp4", str "/u/s.mp4", 5, str "video/mp4"⟩⟩],
          [] ++ [str "/u/s.mp4"]⟩)
    ∧ (uploadRoute ⟨some ⟨str "big.webm", str "video/webm", 26214400⟩, some (str "goal")⟩
        (str "s.webm") (str "/u/s.webm") (str "id2") (str "t0") [] []
      = ⟨413, false, none, some (str "File must be under 25 MB."), [], []⟩)
    ∧ (uploadRoute ⟨some ⟨str "x.gif", str "image/gif", 5⟩, some (str "goal")⟩
        (str "s.gif") (str "/u/s.gif") (str "id3") (str "t0") [] []
      = ⟨400, false, none, some (str "Only mp4, webm, or mov videos are allowed."), [], []⟩)
    ∧ (uploadRoute ⟨some ⟨str "v.mp4", str "video/mp4", 5⟩, some (str "  ")⟩
        (str "s.mp4") (str "/u/s.mp4") (str "id4") (str "t0") [] []
      = ⟨400, false, none, some (str "Prompt is required."), [], []⟩) := by
  refine ⟨?_, ?_, ?_, ?_⟩
  · exact (c5_upload_validation.1 ⟨str "v.mp4", str "video/mp4", 5⟩ (str " goal ")
      (str "s.mp4") (str "/u/s.mp4") (str "id1") (str "t0") [] []
      (by decide) (by decide) (by decide)).1
  · exact c5_upload_validation.2.1 ⟨str "big.webm", str "video/webm", 26214400⟩
      (some (str "goal")) (str "s.webm") (str "/u/s.webm") (str "id2") (str "t0") [] []
      (by decide) (by decide)
  · exact c5_upload_validation.2.2.1 ⟨str "x.gif", str "image/gif", 5⟩
      (some (str "goal")) (str "s.gif") (str "/u/s.gif") (str "id3") (str "t0") [] []
      (by decide)
  · exact (c5_upload_validation.2.2.2 ⟨str "v.mp4", str "video/mp4", 5⟩
      (some (str "  ")) (str "s.mp4") (str "/u/s.mp4") (str "id4") (str "t0") [] []
      (by decide) (by decide) (by decide) (by decide)).2

/-- C7: store discipline.  A successful upload inserts the new submission
at index 0; every endpoint either leaves the store unchanged or overwrites
exactly one existing index in place (the found submission's index), never
deleting anything; and an in-place overwrite preserves the length and
every other position, hence the relative order and identity of all other
submissions. -/
theorem c7_store_newest_first :
    (∀ (f : FileIn) (p storedName freshPath newId now : Str)
        (store : List Submission) (disk : List Str),
        fileFilter f.mimetype = true → f.size < MAX_BYTES → jsTrim p ≠ [] →
        ∃ sub, (uploadRoute ⟨some f, some p⟩ storedName freshPath newId now store disk).store
          = sub :: store)
    ∧ (∀ (req : UploadReq) (storedName freshPath newId now : Str)
        (store : List Submission) (disk : List Str),
        (uploadRoute req storedName freshPath newId now store disk).store = store
        ∨ ∃ sub, (uploadRoute req storedName freshPath newId now store disk).store
            = sub :: store)
    ∧ (∀ (store : List Submission) (id now : Str) (w : Except Str (Str × List SrtSegment)),
        (transcribeEndpoint store id now w).store = store
        ∨ ∃ i x, store.findIdx? (fun s => s.id = id) = some i ∧ i < store.length ∧
            (transcribeEndpoint store id now w).store = store.set i x)
    ∧ (∀ (store : List Submission) (id : Str) (apiKey : Option Str) (modelName now : Str)
        (g : Str → Except Str Str),
        (analyzeEndpoint store id apiKey modelName now g).store = store
        ∨ ∃ i x, store.findIdx? (fun s => s.id = id) = some i ∧ i < store.length ∧
            (analyzeEndpoint store id apiKey modelName now g).store = store.set i x)
    ∧ (∀ (store : List Submission) (id now : Str) (shot : Except Str Str)
        (gen1 gen2 : Except Str Unit),
        (veoEndpoint store id now shot gen1 gen2).store = store
        ∨ ∃ i x, store.findIdx? (fun s => s.id = id) = some i ∧ i < store.length ∧
            (veoEndpoint store id now shot gen1 gen2).store = store.set i x)
    ∧ (∀ (store : List Submission) (i j : Nat) (x : Submission),
        (store.set i x).length = store.length
        ∧ (j ≠ i → (store.set i x)[j]? = store[j]?)) := by
  refine ⟨?_, ?_, ?_, ?_, ?_, ?_⟩
  · intro f p storedName freshPath newId now store disk hff hsize hp
    refine ⟨⟨newId, now, jsTrim p, none, none, none,
      ⟨f.originalname, storedName, freshPath, f.size, f.mimetype⟩⟩, ?_⟩
    unfold uploadRoute multerPhase
    simp only [hff]
    rw [if_neg (by simp), if_neg (by omega)]
    unfold uploadHandler
    simp only [Option.getD_some]
    rw [if_neg hp]
  · intro req storedName freshPath newId now store disk
    obtain ⟨file?, p?⟩ := req
    cases file? with
    | none =>
      by_cases hp : jsTrim (p?.getD []) = []
      · left; simp [uploadRoute, multerPhase, uploadHandler, hp]
      · left; simp [uploadRoute, multerPhase, uploadHandler, hp]
    | some f =>
      by_cases hff : fileFilter f.mimetype = true
      · by_cases hsz : f.size ≥ MAX_BYTES
        · left; simp [uploadRoute, multerPhase, uploadHandler, hff, hsz]
        · by_cases hp : jsTrim (p?.getD []) = []
          · left; simp [uploadRoute, multerPhase, uploadHandler, hff, hsz, hp]
          · right
            refine ⟨⟨newId, now, jsTrim (p?.getD []), none, none, none,
              ⟨f.originalname, storedName, freshPath, f.size, f.mimetype⟩⟩, ?_⟩
            simp [uploadRoute, multerPhase, uploadHandler, hff, hsz, hp]
      · left; simp [uploadRoute, multerPhase, uploadHandler, hff]
  · intro store id now w
    cases hf : store.findIdx? (fun s => s.id = id) with
    | none => left; simp [transcribeEndpoint, hf]
    | some i =>
      simp only [transcribeEndpoint, hf]
      split
      · left; rfl
      · split
        · left; rfl
        · right; exact ⟨i, _, rfl, findIdx?_bound hf, rfl⟩
  · intro store id apiKey modelName now g
    cases apiKey with
    | none => left; rfl
    | some k =>
      cases hf : store.findIdx? (fun s => s.id = id) with
      | none => left; simp [analyzeEndpoint, hf]
      | some i =>
        simp only [analyzeEndpoint, hf]
        split
        · left; rfl
        · split
          · left; rfl
          · right; exact ⟨i, _, rfl, findIdx?_bound hf, rfl⟩
  · intro store id now shot gen1 gen2
    cases hf : store.findIdx? (fun s => s.id = id) with
    | none => left; simp [veoEndpoint, hf]
    | some i =>
      simp only [veoEndpoint, hf]
      split
      · left; rfl
      · split
        · left; rfl
        · split
          · left; rfl
          · split
            · left; rfl
            · right; exact ⟨i, _, rfl, findIdx?_bound hf, rfl⟩
  · intro store i j x
    exact ⟨List.length_set store i x, fun hj => List.getElem?_set_ne (Ne.symm hj)⟩

/-- Witness for C7: a valid upload onto the empty store inserts at the
head; a fresh transcription on a singleton store overwrites index 0. -/
theorem c7_store_newest_first_witness :
    (∃ sub, (uploadRoute ⟨some ⟨str "v.mp4", str "video/mp4", 5⟩, some (str "goal")⟩
        (str "s.mp4") (str "/u/s.mp4") (str "id1") (str "t0") [] []).store = [sub])
    ∧ ((transcribeEndpoint [subFreshB] (str "b") (str "t2") (.ok (str "new", []))).store
          = [subFreshB]
        ∨ ∃ i x, [subFreshB].findIdx? (fun s => s.id = str "b") = some i
            ∧ i < [subFreshB].length
            ∧ (transcribeEndpoint [subFreshB] (str "b") (str "t2")
                (.ok (str "new", []))).store = [subFreshB].set i x) := by
  constructor
  · exact c7_store_newest_first.1 ⟨str "v.mp4", str "video/mp4", 5⟩ (str "goal")
      (str "s.mp4") (str "/u/s.mp4") (str "id1") (str "t0") [] []
      (by decide) (by decide) (by decide)
  · exact c7_store_newest_first.2.2.1 [subFreshB] (str "b") (str "t2") (.ok (str "new", []))

/-- C2: the 4-line model-response parser.  A well-formed response with all
four labelled lines parses with every field populated; a response missing
the `LONGEST_BREAK_MS:` line (or whose numeric pattern is absent) yields
all three break fields null while show and both clips still parse; and
any input, well-formed or not, produces a result in which each missing
labelled line degrades to its default (`"Unknown"`, nulls, empty). -/
theorem c2_gemini_four_line_parsing :
    (∀ s d1 d2 d3 q a : Str,
        Trimmed s = true → s ≠ [] → '\n' ∉ s →
        Trimmed q = true → q ≠ [] → '\n' ∉ q →
        Trimmed a = true → a ≠ [] → '\n' ∉ a →
        d1 ≠ [] → (∀ x ∈ d1, x.isDigit = true) →
        d2 ≠ [] → (∀ x ∈ d2, x.isDigit = true) →
        d3 ≠ [] → (∀ x ∈ d3, x.isDigit = true) →
        parseGeminiFourLines (joinStr ['\n']
            [str "SHOW: " ++ s,
             str "LONGEST_BREAK_MS: "
               ++ (d1 ++ (str "-" ++ (d2 ++ (str " (" ++ (d3 ++ str ")"))))),
             str "CLIP_1_QUESTION: " ++ q,
             str "CLIP_2_ANSWER: " ++ a])
          = ⟨s, some (digitsToNat d1), some (digitsToNat d2), some (digitsToNat d3), q, a⟩)
    ∧ (∀ s q a : Str,
        Trimmed s = true → s ≠ [] → '\n' ∉ s →
        Trimmed q = true → q ≠ [] → '\n' ∉ q →
        Trimmed a = true → a ≠ [] → '\n' ∉ a →
        parseGeminiFourLines (joinStr ['\n']
            [str "SHOW: " ++ s, str "CLIP_1_QUESTION: " ++ q, str "CLIP_2_ANSWER: " ++ a])
          = ⟨s, none, none, none, q, a⟩)
    ∧ (∀ raw : Str,
        ((geminiLines raw).find? (fun l => strStarts (str "SHOW:") (upperStr l)) = none →
          (parseGeminiFourLines raw).showName = str "Unknown")
        ∧ ((geminiLines raw).find?
              (fun l => strStarts (str "LONGEST_BREAK_MS:") (upperStr l)) = none →
            (parseGeminiFourLines raw).breakStartMs = none
            ∧ (parseGeminiFourLines raw).breakEndMs = none
            ∧ (parseGeminiFourLines raw).breakDurationMs = none)
        ∧ ((geminiLines raw).find?
              (fun l => strStarts (str "CLIP_1_QUESTION:") (upperStr l)) = none →
            (parseGeminiFourLines raw).clip1Question = [])
        ∧ ((geminiLines raw).find?
              (fun l => strStarts (str "CLIP_2_ANSWER:") (upperStr l)) = none →
            (parseGeminiFourLines raw).clip2Answer = []))
    ∧ (∀ raw : Str,
        matchBreak (findLabel (str "LONGEST_BREAK_MS:") (geminiLines raw)) = none →
        (parseGeminiFourLines raw).breakStartMs = none
        ∧ (parseGeminiFourLines raw).breakEndMs = none
        ∧ (parseGeminiFourLines raw).breakDurationMs = none) := by
  refine ⟨?_, ?_, parseGemini_defaults, ?_⟩
  · intro s d1 d2 d3 q a hst hsn hsnl hqt hqn hqnl hat han hanl h1n h1 h2n h2 h3n h3
    exact parseGemini_fourLines_complete hst hsn hsnl hqt hqn hqnl hat han hanl
      h1n h1 h2n h2 h3n h3
  · intro s q a hst hsn hsnl hqt hqn hqnl hat han hanl
    exact parseGemini_threeLines_noBreak hst hsn hsnl hqt hqn hqnl hat han hanl
  · intro raw h
    simp only [parseGeminiFourLines]
    rw [h]
    exact ⟨rfl, rfl, rfl⟩

/-- Witness for C2: a complete response, a response without the break
line, and an unlabelled input. -/
theorem c2_gemini_four_line_parsing_witness :
    parseGeminiFourLines (joinStr ['\n']
        [str "SHOW: " ++ str "Bluey",
         str "LONGEST_BREAK_MS: "
           ++ (str "12000" ++ (str "-" ++ (str "15500" ++ (str " (" ++ (str "3500" ++ str ")"))))),
         str "CLIP_1_QUESTION: " ++ str "What is two plus two?",
         str "CLIP_2_ANSWER: " ++ str "Two plus two is four."])
      = ⟨str "Bluey", some (digitsToNat (str "12000")), some (digitsToNat (str "15500")),
          some (digitsToNat (str "3500")), str "What is two plus two?",
          str "Two plus two is four."⟩
    ∧ parseGeminiFourLines (joinStr ['\n']
        [str "SHOW: " ++ str "Bluey", str "CLIP_1_QUESTION: " ++ str "Q?",
         str "CLIP_2_ANSWER: " ++ str "A."])
      = ⟨str "Bluey", none, none, none, str "Q?", str "A."⟩
    ∧ (parseGeminiFourLines (str "no labels here")).showName = str "Unknown"
    ∧ (parseGeminiFourLines (str "SHOW: X\nLONGEST_BREAK_MS: soon\nCLIP_1_QUESTION: Q?\nCLIP_2_ANSWER: A.")).breakStartMs
        = none := by
  refine ⟨?_, ?_, ?_, ?_⟩
  · exact c2_gemini_four_line_parsing.1 (str "Bluey") (str "12000") (str "15500")
      (str "3500") (str "What is two plus two?") (str "Two plus two is four.")
      (by decide) (by decide) (by decide) (by decide) (by decide) (by decide)
      (by decide) (by decide) (by decide) (by decide) (by decide) (by decide)
      (by decide) (by decide) (by decide)
  · exact c2_gemini_four_line_parsing.2.1 (str "Bluey") (str "Q?") (str "A.")
      (by decide) (by decide) (by decide) (by decide) (by decide) (by decide)
      (by decide) (by decide) (by decide)
  · exact (c2_gemini_four_line_parsing.2.2.1 (str "no labels here")).1 (by decide)
  · exact (c2_gemini_four_line_parsing.2.2.2
      (str "SHOW: X\nLONGEST_BREAK_MS: soon\nCLIP_1_QUESTION: Q?\nCLIP_2_ANSWER: A.")
      (by decide)).1

end VPU






